import Mathlib

/-!
Verification development for the AlphApexManager repository
(`alpha_manager/directory_manager.py`, `alpha_manager/windows_service.py`).

The Python code manipulates JSON documents (templates), a filesystem, and a
polling watcher.  We give a shallow embedding:

* `JVal` models JSON values / Python objects produced by `json.load`
  (dicts are association lists in insertion order; `jnull` doubles as
  Python `None`).
* Python operations used by the code (`in`, `[...]`, truthiness,
  `str.replace`, `pathlib` joining, `os.path` functions) are modelled by
  explicit functions; operations that raise in Python return
  `Except String _` with the error kind in the message.
* The filesystem is a pair of lists: directory paths and (file path,
  content) pairs, paths being lists of components.

All definitions are structural (no well-founded recursion), so concrete
runs evaluate by `decide`/`rfl`.
-/

set_option autoImplicit false

/-- JSON value / Python object as produced by `json.load`.  Objects keep
their fields in insertion order, like Python dicts. -/
inductive JVal where
  | jnull
  | jbool (b : Bool)
  | jnum (n : Int)
  | jstr (s : String)
  | jarr (elems : List JVal)
  | jobj (fields : List (String × JVal))

/-- First-match association lookup, the model of Python `d[k]` / `k in d`
for dicts (keys of a dict coming from `json.load` are unique). -/
def alookup (k : String) : List (String × JVal) → Option JVal
  | [] => none
  | (k', v) :: rest => if k' = k then some v else alookup k rest

/-- Keys of an object, in order. -/
def akeys (l : List (String × JVal)) : List String := l.map Prod.fst

/-- Python `k in d` for a dict. -/
def hasKey (k : String) (l : List (String × JVal)) : Bool := (alookup k l).isSome

/-- Python `d[k] = v`: update in place if the key exists, else append. -/
def setKey (k : String) (v : JVal) : List (String × JVal) → List (String × JVal)
  | [] => [(k, v)]
  | (k', w) :: rest => if k' = k then (k, v) :: rest else (k', w) :: setKey k v rest

/-- Python truthiness of a value (`if not template: ...`). -/
def pyFalsy : JVal → Bool
  | .jnull => true
  | .jbool b => !b
  | .jnum n => n = 0
  | .jstr s => s = ""
  | .jarr l => l.isEmpty
  | .jobj l => l.isEmpty

/-- Python `str(x)` for the scalar values that can appear in messages.
For containers the exact Python repr is not reproduced (the only use is
inside human-readable error strings, whose emptiness is what matters). -/
def pyStrOf : JVal → String
  | .jnull => "None"
  | .jbool b => if b then "True" else "False"
  | .jnum n => toString n
  | .jstr s => s
  | .jarr _ => "[...]"
  | .jobj _ => "\x7b...\x7d"

/-- Python `v == s` for a string literal `s` (equality between a JSON value
and a string: only strings can compare equal). -/
def jeqStr (v : JVal) (s : String) : Bool :=
  match v with
  | .jstr x => x = s
  | _ => false

/-- Infix test on character lists (Python substring membership). -/
def isInfixOfL (pat : List Char) : List Char → Bool
  | [] => pat.isEmpty
  | c :: rest => pat.isPrefixOf (c :: rest) || isInfixOfL pat rest

/-- Python `key in container`. Dicts test key membership, lists test element
equality, strings test substring; other values raise `TypeError`. -/
def pyContains (container : JVal) (key : String) : Except String Bool :=
  match container with
  | .jobj fields => .ok (hasKey key fields)
  | .jarr elems => .ok (elems.any (fun v => jeqStr v key))
  | .jstr s => .ok (isInfixOfL key.data s.data)
  | _ => .error "TypeError: argument of type is not iterable"

/-- Python `container[key]` for a string key. Dicts look the key up
(`KeyError` if absent); lists and strings need integer indices
(`TypeError`); other values are not subscriptable (`TypeError`). -/
def pyGetItem (container : JVal) (key : String) : Except String JVal :=
  match container with
  | .jobj fields =>
    match alookup key fields with
    | some v => .ok v
    | none => .error ("KeyError: " ++ key)
  | .jarr _ => .error "TypeError: list indices must be integers"
  | .jstr _ => .error "TypeError: string indices must be integers"
  | _ => .error "TypeError: object is not subscriptable"

/-- Python iteration `for x in container`. Dicts iterate keys, strings
iterate one-character strings; non-iterables raise `TypeError`. -/
def pyIter (container : JVal) : Except String (List JVal) :=
  match container with
  | .jarr elems => .ok elems
  | .jstr s => .ok (s.data.map (fun c => .jstr (String.mk [c])))
  | .jobj fields => .ok ((akeys fields).map .jstr)
  | _ => .error "TypeError: object is not iterable"

/-- Python `pat in s` for strings (substring test). -/
def strIn (pat s : String) : Bool := isInfixOfL pat.data s.data

/-- Fuel-driven core of Python `str.replace`: replace non-overlapping
occurrences of `pat` left to right.  The fuel starts at the length of the
string; every step consumes at least one character (the patterns used by
the code are nonempty), so the fuel never runs out.  The definition is
structural on the fuel so that concrete runs reduce in the kernel. -/
def replaceFuel (pat rep : List Char) : Nat → List Char → List Char
  | 0, s => s
  | _ + 1, [] => []
  | n + 1, c :: rest =>
    if pat ≠ [] ∧ pat.isPrefixOf (c :: rest) then
      rep ++ replaceFuel pat rep n ((c :: rest).drop pat.length)
    else
      c :: replaceFuel pat rep n rest

/-- Python `s.replace(pat, rep)` (for the nonempty patterns used by the
code). -/
def pyReplace (s pat rep : String) : String :=
  String.mk (replaceFuel pat.data rep.data s.data.length s.data)

/-- Split a character list on `/`, keeping empty chunks
(the raw chunks of a POSIX path string). -/
def splitRaw : List Char → List (List Char)
  | [] => [[]]
  | c :: rest =>
    if c = '/' then [] :: splitRaw rest
    else
      match splitRaw rest with
      | chunk :: more => (c :: chunk) :: more
      | [] => [[c]]

/-- A filesystem path as a list of components. -/
abbrev FPath := List String

/-- Components contributed by one string segment under `pathlib` joining:
empty segments and `.` segments contribute no parts.  (Absolute segments,
which `pathlib` would let replace the whole path, do not occur in the
claims and are not treated specially.) -/
def pathComps (s : String) : FPath :=
  ((splitRaw s.data).map String.mk).filter (fun x => x ≠ "" && x ≠ ".")

/-- `os.path.basename`: the part after the last slash (which may be empty). -/
def basenameStr (s : String) : String :=
  (((splitRaw s.data).map String.mk).getLast?).getD ""

/-- Join path components with `/` (`os.path.relpath` output, POSIX
separator). -/
def joinSlash : List String → String
  | [] => ""
  | [x] => x
  | x :: rest => x ++ "/" ++ joinSlash rest

/-- The nonempty prefixes of a path, shortest first (the directories
`os.makedirs` visits). -/
def pathInits : FPath → List FPath
  | [] => []
  | c :: rest => [c] :: (pathInits rest).map (fun p => c :: p)

/-- Python `str.strip(chars)`: drop characters of the set from both ends. -/
def pyStrip (s : String) (chars : List Char) : String :=
  String.mk (((s.data.dropWhile (fun c => chars.contains c)).reverse.dropWhile
    (fun c => chars.contains c)).reverse)

example : pyReplace "xxxxx" "xxxxx" "042" = "042" := by decide
example : pyReplace "a-xxxxx-b" "xxxxx" "042" = "a-042-b" := by decide
example : pyReplace "xxxxxxxxx" "xxxxx" "yx" = "yxxxxx" := by decide
example : pathComps "a/b" = ["a", "b"] := by decide
example : pathComps "" = [] := by decide
example : pathComps "." = [] := by decide
example : basenameStr "a/b" = "b" := by decide
example : basenameStr "srcdir" = "srcdir" := by decide
example : pathInits ["a", "b"] = [["a"], ["a", "b"]] := by decide

/-! ## Filesystem model

Directories are a list of paths, files a list of (path, content) pairs.
The root `[]` always exists.  Operations mirror the `os` / `pathlib` /
`shutil` calls made by `directory_manager.py`; an operation that raises in
Python returns `Except.error` with the exception kind.  (Partial mutation
inside a failing `os.makedirs` is not modelled; no theorem below depends
on the state after a crash.) -/

structure FS where
  dirs : List FPath
  files : List (FPath × String)

/-- First-match content lookup in a file list. -/
def flookup (p : FPath) : List (FPath × String) → Option String
  | [] => none
  | (q, c) :: rest => if q = p then some c else flookup p rest

/-- Content lookup for a file path. -/
def FS.lookupFile (fs : FS) (p : FPath) : Option String :=
  flookup p fs.files

/-- A path names an existing directory (the root always exists). -/
def FS.isDir (fs : FS) (p : FPath) : Bool := p.isEmpty || fs.dirs.contains p

/-- A path names an existing file. -/
def FS.isFile (fs : FS) (p : FPath) : Bool := (fs.lookupFile p).isSome

/-- `Path.exists()`. -/
def FS.pexists (fs : FS) (p : FPath) : Bool := fs.isDir p || fs.isFile p

/-- Write/overwrite a file's content. -/
def setFileAssoc (p : FPath) (c : String) : List (FPath × String) → List (FPath × String)
  | [] => [(p, c)]
  | (q, d) :: rest => if q = p then (p, c) :: rest else (q, d) :: setFileAssoc p c rest

/-- Create one directory if missing (`exist_ok=True` semantics for a single
level): an existing directory is fine, an existing file raises. -/
def FS.mkdirOne (fs : FS) (p : FPath) : Except String FS :=
  if fs.isDir p then .ok fs
  else if fs.isFile p then .error "FileExistsError"
  else .ok { fs with dirs := fs.dirs ++ [p] }

/-- Fold `mkdirOne` over a list of paths. -/
def FS.mkdirList (fs : FS) : List FPath → Except String FS
  | [] => .ok fs
  | p :: rest => do
    let fs' ← fs.mkdirOne p
    fs'.mkdirList rest

/-- `os.makedirs(p, exist_ok=True)`: create every missing prefix of `p`,
shortest first. -/
def FS.makedirs (fs : FS) (p : FPath) : Except String FS :=
  fs.mkdirList (pathInits p)

/-- `Path.touch()`: a no-op if the path exists (directory or file — only the
mtime is updated, content is preserved); otherwise create an empty file,
which requires the parent directory to exist. -/
def FS.touch (fs : FS) (p : FPath) : Except String FS :=
  if fs.isDir p || fs.isFile p then .ok fs
  else if fs.isDir p.dropLast then .ok { fs with files := fs.files ++ [(p, "")] }
  else .error "FileNotFoundError"

/-- `shutil.copy(src, dst)`: read `src` (raises if it is a directory or
missing), copy into `dst` — if `dst` is an existing directory the file goes
under it with `src`'s base name; an existing destination file is
overwritten. -/
def FS.copyFile (fs : FS) (src dst : FPath) : Except String FS :=
  match fs.lookupFile src with
  | none =>
    if fs.isDir src then .error "IsADirectoryError" else .error "FileNotFoundError"
  | some c =>
    let d := if fs.isDir dst then dst ++ [(src.getLast?).getD ""] else dst
    if fs.isDir d then .error "IsADirectoryError"
    else if fs.isDir d.dropLast then .ok { fs with files := setFileAssoc d c fs.files }
    else .error "FileNotFoundError"

/-! ## Template validator (`TemplateManager.validate_template`)

The source accumulates human-readable error strings and returns
`True`/`False` according to whether the list is empty; we return the error
list itself (`validate_ok` is the boolean).  The Python source breaks
message literals with backslash line continuations, which embed runs of
spaces in the text; the messages here are whitespace-normalised.  Top-level
documents that are not dicts can crash the source
(`isinstance(template["subdirectories"], dict)` subscripts the document),
hence the `Except`. -/

/-- Concatenation of the error lists produced for each element (the shape
of the `for` loops that `append` to `errors`). -/
def concatMap' {α β : Type} (f : α → List β) : List α → List β
  | [] => []
  | x :: rest => f x ++ concatMap' f rest

/-- Errors for one file entry (inner `for file_info in contents["files"]`
loop, an `elif` chain). -/
def validateFileEntry (subdir : String) (fi : JVal) : List String :=
  match fi with
  | .jobj ff =>
    match alookup "name" ff, alookup "type" ff with
    | some nv, some tv =>
      if jeqStr tv "template" && !hasKey "source" ff then
        ["Template file \x27" ++ pyStrOf nv ++ "\x27 in \x27" ++ subdir ++
          "\x27 is missing a \x27source\x27 key."]
      else if !(jeqStr tv "empty" || jeqStr tv "template") then
        ["Invalid file type for \x27" ++ pyStrOf nv ++ "\x27 in \x27" ++ subdir ++
          "\x27. Must be \x27empty\x27 or \x27template\x27."]
      else []
    | _, _ =>
      ["File entry in \x27" ++ subdir ++ "\x27 must have \x27name\x27 and \x27type\x27 keys."]
  | _ => ["File entry in \x27" ++ subdir ++ "\x27 must be a dictionary."]

/-- Errors for one subdirectory entry (outer loop body, an `elif` chain). -/
def validateSubdirEntry (p : String × JVal) : List String :=
  match p.2 with
  | .jobj cf =>
    match alookup "files" cf with
    | none => ["Subdirectory \x27" ++ p.1 ++ "\x27 is missing a \x27files\x27 list."]
    | some fv =>
      match fv with
      | .jarr entries => concatMap' (validateFileEntry p.1) entries
      | _ => ["\x27files\x27 in subdirectory \x27" ++ p.1 ++ "\x27 must be a list."]
  | _ => ["Subdirectory \x27" ++ p.1 ++ "\x27 must be a dictionary."]

/-- Whether a value is a dict (`isinstance(x, dict)`). -/
def JVal.isObj : JVal → Bool
  | .jobj _ => true
  | _ => false

/-- `TemplateManager.validate_template`: the ordered error list.  The
`template_name` parameter of the source only feeds `print` output and is
omitted. -/
def validate_template (t : JVal) : Except String (List String) := do
  let hasMain ← pyContains t "main_directory"
  let errs0 := if hasMain then [] else ["Missing required key: \x27main_directory\x27"]
  let hasSubs ← pyContains t "subdirectories"
  let errs1 := errs0 ++ (if hasSubs then [] else ["Missing required key: \x27subdirectories\x27"])
  let errs2 ←
    if hasSubs then do
      let sv ← pyGetItem t "subdirectories"
      pure (errs1 ++ (if !sv.isObj then ["\x27subdirectories\x27 must be a dictionary."] else []))
    else pure errs1
  let errs3 ←
    if hasSubs then do
      let sv ← pyGetItem t "subdirectories"
      match sv with
      | .jobj subs => pure (errs2 ++ concatMap' validateSubdirEntry subs)
      | _ => pure errs2
    else pure errs2
  pure errs3

/-- The boolean the source returns: no errors were generated. -/
def validate_ok (t : JVal) : Bool :=
  match validate_template t with
  | .ok errs => errs.isEmpty
  | .error _ => false

/-- One file entry is well formed: a dict with `name` and `type`,
`template`-typed entries carrying `source`, `type` one of the two
recognized values. -/
def fileEntryOK (fi : JVal) : Bool :=
  match fi with
  | .jobj ff =>
    match alookup "name" ff, alookup "type" ff with
    | some _, some tv =>
      (!(jeqStr tv "template" && !hasKey "source" ff)) &&
      (jeqStr tv "empty" || jeqStr tv "template")
    | _, _ => false
  | _ => false

/-- One subdirectory value is well formed: a dict with a `files` list of
well-formed entries. -/
def subdirOK (p : String × JVal) : Bool :=
  match p.2 with
  | .jobj cf =>
    match alookup "files" cf with
    | some (.jarr entries) => entries.all fileEntryOK
    | _ => false
  | _ => false

/-- The full success condition of the validator (used for the corrected
form of the claim about `validate`): both required keys present,
`subdirectories` a dict, and every subdirectory well formed. -/
def validDocOK (t : JVal) : Bool :=
  match t with
  | .jobj tf =>
    hasKey "main_directory" tf &&
    (match alookup "subdirectories" tf with
     | some (.jobj subs) => subs.all subdirOK
     | _ => false)
  | _ => false

/-- The four conditions the claim about `validate` lists, written exactly
from the claim's words: every subdirectory value has a `files` list, every
file entry has `name` and `type` keys, every `type` is `empty` or
`template`, and `template`-typed entries have a `source` key.  (A document
without a `subdirectories` mapping has no subdirectory values, so the
conditions hold vacuously.) -/
def claimedValidConds (t : JVal) : Bool :=
  match t with
  | .jobj tf =>
    (match alookup "subdirectories" tf with
     | some (.jobj subs) => subs.all subdirOK
     | _ => true)
  | _ => true

/-! ## Parameter substitution (`TemplateManager.modify_template`)

The source mutates the template in place: sets `main_directory` to
`f"{project_name}-{project_number}"`, then for every file entry whose
`name` contains the literal token `xxxxx`, replaces the token with the
project number.  Access errors Python would raise (missing
`subdirectories` key, non-dict documents, non-string names that reach
`.replace`) surface as `Except.error`. -/

/-- Monadic map over `Except`, in loop order (the shape of the `for`
loops that can raise). -/
def emapM {a b : Type} (f : a → Except String b) : List a → Except String (List b)
  | [] => .ok []
  | x :: rest => do
    let y ← f x
    let ys ← emapM f rest
    pure (y :: ys)

/-- One file element of a `files` value: `if "name" in file and "xxxxx" in
file["name"]: file["name"] = file["name"].replace("xxxxx", project_number)`. -/
def modifyFileElem (project_number : String) (file : JVal) : Except String JVal := do
  let hasName ← pyContains file "name"
  if hasName then do
    let nv ← pyGetItem file "name"
    let hasTok ← pyContains nv "xxxxx"
    if hasTok then
      match nv, file with
      | .jstr ns, .jobj ff =>
        pure (.jobj (setKey "name" (.jstr (pyReplace ns "xxxxx" project_number)) ff))
      | _, _ => .error "AttributeError: replace"
    else pure file
  else pure file

/-- One subdirectory's contents: `if "files" in contents: for file in
contents["files"]: ...`.  Only a list value can actually be updated;
iterating a string or dict value either crashes inside the loop or leaves
it unchanged. -/
def modifyContents (project_number : String) (contents : JVal) : Except String JVal := do
  let hasFiles ← pyContains contents "files"
  if hasFiles then do
    let fv ← pyGetItem contents "files"
    let elems ← pyIter fv
    let elems' ← emapM (modifyFileElem project_number) elems
    match fv, contents with
    | .jarr _, .jobj cf => pure (.jobj (setKey "files" (.jarr elems') cf))
    | _, _ => pure contents
  else pure contents

/-- `TemplateManager.modify_template`. -/
def modify_template (t : JVal) (project_number project_name : String) :
    Except String JVal :=
  match t with
  | .jobj tf => do
    let tf1 := setKey "main_directory" (.jstr (project_name ++ "-" ++ project_number)) tf
    let sv ← pyGetItem (.jobj tf1) "subdirectories"
    match sv with
    | .jobj subs => do
      let subs' ← emapM (fun p => do
        let c' ← modifyContents project_number p.2
        pure (p.1, c')) subs
      pure (.jobj (setKey "subdirectories" (.jobj subs') tf1))
    | _ => .error "AttributeError: items"
  | _ => .error "TypeError: object does not support item assignment"

/-! Spec-words form of `modify` (for the refinement statement): set
`main_directory` to `"{project_name}-{project_number}"` and replace every
occurrence of the literal token `xxxxx` in each file entry's name with the
project number. -/

/-- Spec-words update of one file entry. -/
def specFileElem (project_number : String) (file : JVal) : JVal :=
  match file with
  | .jobj ff =>
    match alookup "name" ff with
    | some (.jstr ns) =>
      .jobj (setKey "name" (.jstr (pyReplace ns "xxxxx" project_number)) ff)
    | _ => file
  | _ => file

/-- Spec-words update of one subdirectory's contents. -/
def specContents (project_number : String) (contents : JVal) : JVal :=
  match contents with
  | .jobj cf =>
    match alookup "files" cf with
    | some (.jarr elems) =>
      .jobj (setKey "files" (.jarr (elems.map (specFileElem project_number))) cf)
    | _ => contents
  | _ => contents

/-- Spec-words form of `modify`. -/
def modifySpec (t : JVal) (project_number project_name : String) : JVal :=
  match t with
  | .jobj tf =>
    let tf1 := setKey "main_directory" (.jstr (project_name ++ "-" ++ project_number)) tf
    match alookup "subdirectories" tf1 with
    | some (.jobj subs) =>
      .jobj (setKey "subdirectories"
        (.jobj (subs.map (fun p => (p.1, specContents project_number p.2)))) tf1)
    | _ => .jobj tf1
  | t' => t'

/-- Shape of a file entry under which `modify` cannot crash: a dict whose
`name` value, if present, is a string. -/
def entryShapeOK (e : JVal) : Bool :=
  match e with
  | .jobj ff =>
    match alookup "name" ff with
    | none => true
    | some (.jstr _) => true
    | some _ => false
  | _ => false

/-- Shape of a subdirectory's contents under which `modify` cannot crash. -/
def contentsShapeOK (c : JVal) : Bool :=
  match c with
  | .jobj cf =>
    match alookup "files" cf with
    | none => true
    | some (.jarr es) => es.all entryShapeOK
    | some _ => false
  | _ => false

/-- Shape of a template under which `modify` cannot crash: a dict with a
`subdirectories` dict whose values all satisfy `contentsShapeOK`. -/
def ModShape (t : JVal) : Bool :=
  match t with
  | .jobj tf =>
    match alookup "subdirectories" tf with
    | some (.jobj subs) => subs.all (fun p => contentsShapeOK p.2)
    | _ => false
  | _ => false

/-- The `main_directory` value of a document. -/
def mainDirOf (t : JVal) : Option JVal :=
  match t with
  | .jobj tf => alookup "main_directory" tf
  | _ => none

/-- The string-valued file names of a document's file entries, in order. -/
def entryNames (c : JVal) : List String :=
  match c with
  | .jobj cf =>
    match alookup "files" cf with
    | some (.jarr es) =>
      es.filterMap (fun e =>
        match e with
        | .jobj ff =>
          match alookup "name" ff with
          | some (.jstr s) => some s
          | _ => none
        | _ => none)
    | _ => []
  | _ => []

/-- All string-valued file names of a template. -/
def namesOf (t : JVal) : List String :=
  match t with
  | .jobj tf =>
    match alookup "subdirectories" tf with
    | some (.jobj subs) => concatMap' (fun p => entryNames p.2) subs
    | _ => []
  | _ => []

/-- No file name of the template contains the `xxxxx` token. -/
def namesTokenFree (t : JVal) : Bool :=
  (namesOf t).all (fun n => !(strIn "xxxxx" n))

/-! ## Template store (`load_template`)

The store is an oracle from resolved paths to raw-file outcomes: `none`
models an absent file, `some (.error e)` a present file whose contents make
`json.load` raise, `some (.ok doc)` a file parsing to `doc`.  Paths are
relative to the script directory (`TEMPLATES_DIR = "templates"`,
`DEFAULT_TEMPLATES_DIR = "templates/defaults"`). -/

/-- Raw template store: resolved path to file outcome. -/
abbrev TStore := FPath → Option (Except String JVal)

/-- Python `s.startswith(pre)`. -/
def startsWithStr (pre s : String) : Bool := pre.data.isPrefixOf s.data

/-- Path resolution of `load_template` lines 115-120: a `defaults/` prefix
resolves under `DEFAULT_TEMPLATES_DIR`, anything else under
`TEMPLATES_DIR` with any `user_created/` occurrence removed
(`str.replace`, as in the source). -/
def resolvePath (template_name : String) : FPath :=
  if startsWithStr "defaults/" template_name then
    ["templates", "defaults"] ++ pathComps (pyReplace template_name "defaults/" "")
  else
    ["templates"] ++ pathComps (pyReplace template_name "user_created/" "")

/-- `TemplateManager.load_template`: `None` (modelled `.ok none`) for an
absent file, the parsed document otherwise; `json.load` of a malformed
file raises, and the source has no handler for it, so the exception
propagates (`.error`). -/
def load_template (store : TStore) (template_name : String) :
    Except String (Option JVal) :=
  match store (resolvePath template_name) with
  | none => .ok none
  | some (.error e) => .error e
  | some (.ok doc) => .ok (some doc)

/-! ## Search (`TemplateManager.search_template`) -/

/-- Lazy `any(query in f for f in elems)`: stops at the first hit, so a
later element that would raise is never evaluated. -/
def anyInM (query : String) : List JVal → Except String Bool
  | [] => .ok false
  | f :: rest => do
    let b ← pyContains f query
    if b then .ok true else anyInM query rest

/-- One subdirectory test: `query in subdir or any(query in f for f in
contents["files"])`.  `or` short-circuits: a match on the key never touches
`files`. -/
def searchSubdir (query : String) (p : String × JVal) : Except String Bool :=
  if strIn query p.1 then .ok true
  else do
    let fv ← pyGetItem p.2 "files"
    let elems ← pyIter fv
    anyInM query elems

/-- The result-collecting loop of `search_template`. -/
def searchLoop (query : String) : List (String × JVal) → Except String (List String)
  | [] => .ok []
  | p :: rest => do
    let m ← searchSubdir query p
    let rs ← searchLoop query rest
    pure (if m then p.1 :: rs else rs)

/-- `TemplateManager.search_template`: loads the template (`.ok none` when
the load failed or the document is falsy — `if not template: return`), then
collects the matching subdirectory keys in order. -/
def search_template (store : TStore) (template_name query : String) :
    Except String (Option (List String)) :=
  match load_template store template_name with
  | .error e => .error e
  | .ok none => .ok none
  | .ok (some t) =>
    if pyFalsy t then .ok none
    else
      match pyGetItem t "subdirectories" with
      | .error e => .error e
      | .ok (.jobj subs) =>
        match searchLoop query subs with
        | .error e => .error e
        | .ok rs => .ok (some rs)
      | .ok _ => .error "AttributeError: items"

/-! ## Generation (`generate_from_template`, lines 319-348)

A run is summarised by the final filesystem, the warnings printed inside
the generation loop, and how the call ended.  For an uncaught exception
(`crashed`) the filesystem at the crash point is not tracked; no theorem
below depends on it. -/

inductive GenOutcome where
  | completed
  | earlyReturn
  | aborted
  | crashed (msg : String)
deriving DecidableEq

structure GenResult where
  fs : FS
  warnings : List String
  outcome : GenOutcome

/-- One file entry of the generation loop (lines 334-346). -/
def genFile (fs : FS) (subdirPath : FPath) (fi : JVal) : Except String (FS × List String) :=
  match fi with
  | .jobj ff => do
    let nv ← pyGetItem (.jobj ff) "name"
    let ns ← (match nv with
      | .jstr s => Except.ok s
      | _ => .error "TypeError: unsupported path segment")
    let filePath := subdirPath ++ pathComps ns
    let tv ← pyGetItem (.jobj ff) "type"
    match tv with
    | .jstr ty =>
      if ty = "empty" then do
        let fs' ← fs.touch filePath
        pure (fs', [])
      else if ty = "template" then do
        let sv ← pyGetItem (.jobj ff) "source"
        let ss ← (match sv with
          | .jstr s => Except.ok s
          | _ => .error "TypeError: unsupported Path argument")
        let srcPath := pathComps ss
        if fs.pexists srcPath then do
          let fs' ← fs.copyFile srcPath filePath
          pure (fs', [])
        else
          pure (fs, ["Template file not found: " ++ ss])
      else
        pure (fs, ["Unknown file type: " ++ ty])
    | _ => pure (fs, ["Unknown file type: " ++ pyStrOf tv])
  | _ => .error "TypeError: file_info is not subscriptable"

/-- The inner `for file_info in contents["files"]` loop. -/
def genFiles (subdirPath : FPath) : List JVal → FS → Except String (FS × List String)
  | [], fs => .ok (fs, [])
  | fi :: rest, fs => do
    let (fs1, w1) ← genFile fs subdirPath fi
    let (fs2, w2) ← genFiles subdirPath rest fs1
    pure (fs2, w1 ++ w2)

/-- The outer `for subdir, contents in template["subdirectories"].items()`
loop. -/
def genSubdirs (mainPath : FPath) : List (String × JVal) → FS → Except String (FS × List String)
  | [], fs => .ok (fs, [])
  | p :: rest, fs => do
    let subdirPath := mainPath ++ pathComps p.1
    let fs1 ← fs.makedirs subdirPath
    let fv ← pyGetItem p.2 "files"
    let elems ← pyIter fv
    let (fs2, w1) ← genFiles subdirPath elems fs1
    let (fs3, w2) ← genSubdirs mainPath rest fs2
    pure (fs3, w1 ++ w2)

/-- Lines 329-346: create the main directory, then every subdirectory and
its files. -/
def generateBody (t : JVal) (outPath : FPath) (fs : FS) : Except String (FS × List String) := do
  let mv ← pyGetItem t "main_directory"
  let ms ← (match mv with
    | .jstr s => Except.ok s
    | _ => .error "TypeError: unsupported path segment")
  let mainPath := outPath ++ pathComps ms
  let fs1 ← fs.makedirs mainPath
  let sv ← pyGetItem t "subdirectories"
  match sv with
  | .jobj subs => genSubdirs mainPath subs fs1
  | _ => .error "AttributeError: items"

/-- Lines 326-348: `generate` on a template value — abort on validation
errors, otherwise run the generation body. -/
def generate (t : JVal) (outPath : FPath) (fs : FS) : GenResult :=
  match validate_template t with
  | .error e => ⟨fs, [], .crashed e⟩
  | .ok errs =>
    if errs.isEmpty then
      match generateBody t outPath fs with
      | .ok (fs', w) => ⟨fs', w, .completed⟩
      | .error e => ⟨fs, [], .crashed e⟩
    else ⟨fs, [], .aborted⟩

/-- Lines 321-323: the loaded template, modified when
`project_number and project_name != ""` (a missing template is Python
`None`, modelled `jnull`, and `modify` of `None` raises). -/
def effectiveTemplate (store : TStore) (template_name project_number project_name : String) :
    Except String JVal :=
  match load_template store template_name with
  | .error e => .error e
  | .ok topt =>
    let t0 := topt.getD .jnull
    if project_number ≠ "" ∧ project_name ≠ "" then
      modify_template t0 project_number project_name
    else .ok t0

/-- `TemplateManager.generate_from_template`. -/
def generate_from_template (store : TStore)
    (template_name output_dir project_number project_name : String) (fs : FS) : GenResult :=
  match effectiveTemplate store template_name project_number project_name with
  | .error e => ⟨fs, [], .crashed e⟩
  | .ok t =>
    if pyFalsy t then ⟨fs, [], .earlyReturn⟩
    else generate t (pathComps output_dir) fs

/-! ## Default generation (`generate_default`, lines 410-435) — the code
path behind the `--generate` CLI flag.  Its file loop has only the
`type == "empty"` branch: template-typed entries are skipped silently. -/

/-- One file entry of `generate_default`'s loop (lines 432-435). -/
def genFileDefault (fs : FS) (subdirPath : FPath) (fi : JVal) : Except String FS :=
  match fi with
  | .jobj ff => do
    let nv ← pyGetItem (.jobj ff) "name"
    let ns ← (match nv with
      | .jstr s => Except.ok s
      | _ => .error "TypeError: unsupported path segment")
    let filePath := subdirPath ++ pathComps ns
    let tv ← pyGetItem (.jobj ff) "type"
    match tv with
    | .jstr ty => if ty = "empty" then fs.touch filePath else .ok fs
    | _ => .ok fs
  | _ => .error "TypeError: file_info is not subscriptable"

/-- `generate_default`'s inner file loop. -/
def genFilesDefault (subdirPath : FPath) : List JVal → FS → Except String FS
  | [], fs => .ok fs
  | fi :: rest, fs => do
    let fs1 ← genFileDefault fs subdirPath fi
    genFilesDefault subdirPath rest fs1

/-- `generate_default`'s subdirectory loop. -/
def genSubdirsDefault (mainPath : FPath) : List (String × JVal) → FS → Except String FS
  | [], fs => .ok fs
  | p :: rest, fs => do
    let subdirPath := mainPath ++ pathComps p.1
    let fs1 ← fs.makedirs subdirPath
    let fv ← pyGetItem p.2 "files"
    let elems ← pyIter fv
    let fs2 ← genFilesDefault subdirPath elems fs1
    genSubdirsDefault mainPath rest fs2

/-- Lines 427-435: the filesystem part of `generate_default`. -/
def generateDefaultBody (t : JVal) (outPath : FPath) (fs : FS) : Except String FS := do
  let mv ← pyGetItem t "main_directory"
  let ms ← (match mv with
    | .jstr s => Except.ok s
    | _ => .error "TypeError: unsupported path segment")
  let mainPath := outPath ++ pathComps ms
  let fs1 ← fs.makedirs mainPath
  let sv ← pyGetItem t "subdirectories"
  match sv with
  | .jobj subs => genSubdirsDefault mainPath subs fs1
  | _ => .error "AttributeError: items"

/-- `TemplateManager.generate_default`.  Note the inverted parameter guard
(`if not project_number and project_name == ""`) and the second,
unconditional `modify_template` after validation, both as in the source.
The `argparse` defaults can also pass Python `None` parameters; the model
covers string-valued parameters (the watcher always passes both). -/
def generate_default (store : TStore)
    (project_number project_name template_name output_dir : String) (fs : FS) : GenResult :=
  match load_template store template_name with
  | .error e => ⟨fs, [], .crashed e⟩
  | .ok topt =>
    let t0 := topt.getD .jnull
    match (if project_number = "" ∧ project_name = "" then
             modify_template t0 project_number project_name
           else .ok t0) with
    | .error e => ⟨fs, [], .crashed e⟩
    | .ok t1 =>
      if pyFalsy t1 then ⟨fs, [], .earlyReturn⟩
      else
        match validate_template t1 with
        | .error e => ⟨fs, [], .crashed e⟩
        | .ok errs =>
          if errs.isEmpty then
            match modify_template t1 project_number project_name with
            | .error e => ⟨fs, [], .crashed e⟩
            | .ok t2 =>
              match generateDefaultBody t2 (pathComps output_dir) fs with
              | .ok fs' => ⟨fs', [], .completed⟩
              | .error e => ⟨fs, [], .crashed e⟩
          else ⟨fs, [], .aborted⟩

/-- The non-interactive CLI dispatch (`main`, lines 475-485): `--generate`
invokes `generate_default` with the four argument values. -/
def mainGenerate (store : TStore)
    (template_name output_dir project_number project_name : String) (fs : FS) : GenResult :=
  generate_default store project_number project_name template_name output_dir fs

/-! ## Cloning (`clone_directory`, lines 268-290) -/

/-- The character set `validate_directory_path` strips from both ends of
the input path (written with escapes for the quote-like characters). -/
def stripSet : List Char :=
  ['!', '@', '#', '$', '%', '^', '&', '*', '(', ')', '_', '+', '=',
   '\x7b', '\x7d', '[', ']', '|', ':', ';', '\x27', '<', '>', ',', '.', '?', '~', '\x60']

/-- `TemplateManager.validate_directory_path`: strip punctuation from both
ends, then require an existing, readable directory.  Returns the cleaned
path on success.  (The permission probe `os.listdir` is modelled as always
succeeding — the filesystem model has no permission bits.) -/
def validate_directory_path (fs : FS) (path : String) : Option String :=
  let cleaned := pyStrip path stripSet
  if cleaned = "" then none
  else
    let p := pathComps cleaned
    if !fs.pexists p then none
    else if fs.isFile p then none
    else if !fs.isDir p then none
    else some cleaned

/-- The file names directly inside a directory (what `os.walk` reports as
`files` for that directory). -/
def immediateFiles (fs : FS) (d : FPath) : List String :=
  fs.files.filterMap (fun q => if q.1.dropLast = d then q.1.getLast? else none)

/-- `os.walk(root)`: the root first, then every directory strictly below
it, each with its immediate file names.  (The real walk is depth-first;
only the set of visited directories matters to `clone`, which keys them by
relative path.) -/
def oswalk (fs : FS) (root : FPath) : List (FPath × List String) :=
  (root, immediateFiles fs root) ::
    ((fs.dirs.filter (fun d => root.isPrefixOf d && d ≠ root)).map
      (fun d => (d, immediateFiles fs d)))

/-- `os.path.relpath(d, root)` followed by the source's `"." → ""`
rewrite. -/
def relKey (root d : FPath) : String :=
  if d = root then "" else joinSlash (d.drop root.length)

/-- The `if relative_root not in template["subdirectories"]` guarded
insertion. -/
def insertIfAbsent (l : List (String × JVal)) (k : String) (v : JVal) :
    List (String × JVal) :=
  if hasKey k l then l else l ++ [(k, v)]

/-- The walk loop of `clone_directory`: each directory contributes a
`{"files": [...names...]}` entry — the names are bare strings, not
`{name, type}` dicts. -/
def buildSubs (root : FPath) (walk : List (FPath × List String)) :
    List (String × JVal) :=
  walk.foldl (fun acc q =>
    insertIfAbsent acc (relKey root q.1) (.jobj [("files", .jarr (q.2.map JVal.jstr))])) []

/-- `TemplateManager.clone_directory`: `none` when path validation fails,
otherwise the template document that the source passes to
`save_template`. -/
def clone_directory (fs : FS) (source_dir : String) : Option JVal :=
  match validate_directory_path fs source_dir with
  | none => none
  | some cleaned =>
    let root := pathComps cleaned
    some (.jobj [("main_directory", .jstr (basenameStr cleaned)),
                 ("subdirectories", .jobj (buildSubs root (oswalk fs root)))])

/-! ## Watcher (`windows_service.py`)

`run_directory_manager` wraps its whole body in `try/except Exception`, so
it never raises; its environment (file readability/parse outcome,
subprocess exit, output-directory appearance) is an oracle.
`monitor_directory` computes `current - seen`, processes each new file and
adds it to the seen set, every poll cycle. -/

inductive RunOutcome where
  | processed (dirAppeared : Bool)
  | missingKeys
  | errorCaught (msg : String)

/-- `JSONFileMonitorService.run_directory_manager` for one descriptor
file: parse failure or a raising subprocess ends in the `except` branch;
missing/falsy `project_name`/`project_number` is logged; otherwise the
generation subprocess runs and the descriptor is copied once the project
directory appears (a timeout is logged). -/
def run_directory_manager (readJson : Option (Except String JVal))
    (subprocFails : Bool) (dirAppears : Bool) : RunOutcome :=
  match readJson with
  | none => .errorCaught "OSError: open"
  | some (.error e) => .errorCaught e
  | some (.ok data) =>
    match data with
    | .jobj df =>
      let pn := (alookup "project_name" df).getD .jnull
      let pnum := (alookup "project_number" df).getD .jnull
      if !pyFalsy pn && !pyFalsy pnum then
        if subprocFails then .errorCaught "CalledProcessError"
        else .processed dirAppears
      else .missingKeys
    | _ => .errorCaught "AttributeError: get"

/-- Environment of one poll cycle: the JSON files currently in the watch
directory, and the processing oracles for each filename. -/
structure PollEnv where
  current : List String
  readJson : String → Option (Except String JVal)
  subprocFails : String → Bool
  dirAppears : String → Bool

/-- One iteration of the `while self.running` loop: new files are
`current - seen`; each is processed and added to `seen` (the processing
outcome is not consulted). -/
def monitorCycle (env : PollEnv) (seen : List String) :
    List (String × RunOutcome) × List String :=
  let newFiles := env.current.filter (fun f => !seen.contains f)
  (newFiles.map (fun f =>
     (f, run_directory_manager (env.readJson f) (env.subprocFails f) (env.dirAppears f))),
   seen ++ newFiles)

/-- A sequence of poll cycles: per-cycle processed (filename, outcome)
lists and the final seen set. -/
def monitorRun : List PollEnv → List String →
    List (List (String × RunOutcome)) × List String
  | [], seen => ([], seen)
  | env :: rest, seen =>
    let (out, seen') := monitorCycle env seen
    let (outs, seenF) := monitorRun rest seen'
    (out :: outs, seenF)

/-- A concrete template on which the corrected equivalence is exercised. -/
def tC2w : JVal := .jobj [
  ("main_directory", .jstr "m"),
  ("subdirectories", .jobj [
    ("a", .jobj [("files", .jarr [
      .jobj [("name", .jstr "f"), ("type", .jstr "empty")]])])])]

/-- Token-freeness of a file entry's name. -/
def entryTokenFree (e : JVal) : Bool :=
  match e with
  | .jobj ff =>
    match alookup "name" ff with
    | some (.jstr ns) => !(strIn "xxxxx" ns)
    | _ => true
  | _ => true

/-- Token-freeness of one subdirectory's file names. -/
def contentsTokenFree (c : JVal) : Bool :=
  match c with
  | .jobj cf =>
    match alookup "files" cf with
    | some (.jarr es) => es.all entryTokenFree
    | _ => true
  | _ => true

/-- No file name of the document contains the `xxxxx` token. -/
def docTokenFree (t : JVal) : Bool :=
  match t with
  | .jobj tf =>
    match alookup "subdirectories" tf with
    | some (.jobj subs) => subs.all (fun p => contentsTokenFree p.2)
    | _ => true
  | _ => true

/-- The input of the `modify` idempotence counterexample: one file named
exactly by the placeholder token. -/
def tC4 : JVal := .jobj [
  ("main_directory", .jstr "m"),
  ("subdirectories", .jobj [
    ("s", .jobj [("files", .jarr [
      .jobj [("name", .jstr "xxxxx"), ("type", .jstr "empty")]])])])]

/-- `tC4` after one `modify(..., "xxxxxy", "A")`. -/
def tC4once : JVal := .jobj [
  ("main_directory", .jstr "A-xxxxxy"),
  ("subdirectories", .jobj [
    ("s", .jobj [("files", .jarr [
      .jobj [("name", .jstr "xxxxxy"), ("type", .jstr "empty")]])])])]

/-- `tC4` after two `modify(..., "xxxxxy", "A")`. -/
def tC4twice : JVal := .jobj [
  ("main_directory", .jstr "A-xxxxxy"),
  ("subdirectories", .jobj [
    ("s", .jobj [("files", .jarr [
      .jobj [("name", .jstr "xxxxxyy"), ("type", .jstr "empty")]])])])]

/-- A store with one malformed JSON file. -/
def storeC8 : TStore := fun p =>
  if p = ["templates", "bad.json"] then
    some (.error "json.decoder.JSONDecodeError: Expecting value")
  else none

/-- A store with one well-formed default template. -/
def storeC8w : TStore := fun p =>
  if p = ["templates", "defaults", "t.json"] then some (.ok (.jobj [])) else none

/-- A store with one template that fails validation (missing
`subdirectories`). -/
def storeC3 : TStore := fun p =>
  if p = ["templates", "bad_schema.json"] then
    some (.ok (.jobj [("main_directory", .jstr "m")]))
  else none

/-- Total form of Python `query in f` for the values on which it cannot
raise (strings: substring; dicts: key membership; lists: element
equality). -/
def pyInB (query : String) (f : JVal) : Bool :=
  match f with
  | .jstr s => strIn query s
  | .jobj ff => hasKey query ff
  | .jarr es => es.any (fun v => jeqStr v query)
  | _ => false

/-- Values on which Python `in` does not raise. -/
def searchableElem (e : JVal) : Bool :=
  match e with
  | .jstr _ => true
  | .jobj _ => true
  | .jarr _ => true
  | _ => false

/-- A subdirectory value `search` can traverse: a dict with a `files`
list of searchable elements. -/
def searchShapeContents (c : JVal) : Bool :=
  match c with
  | .jobj cf =>
    match alookup "files" cf with
    | some (.jarr es) => es.all searchableElem
    | _ => false
  | _ => false

/-- The condition under which `search` reports a subdirectory: the query
is a substring of the key, or Python `query in f` holds of some element
`f` of the `files` list — substring of `f` only when `f` is a string; for
the dict-shaped entries of a validated template this is key membership,
not filename substring. -/
def searchCondB (query : String) (p : String × JVal) : Bool :=
  strIn query p.1 ||
    (match p.2 with
     | .jobj cf =>
       match alookup "files" cf with
       | some (.jarr es) => es.any (pyInB query)
       | _ => false
     | _ => false)

/-- Store holding a template whose file entries are dicts (the validated
schema): used to refute filename-substring search. -/
def storeC5 : TStore := fun p =>
  if p = ["templates", "s.json"] then
    some (.ok (.jobj [
      ("main_directory", .jstr "m"),
      ("subdirectories", .jobj [
        ("s", .jobj [("files", .jarr [
          .jobj [("name", .jstr "main.txt"), ("type", .jstr "empty")]])])])]))
  else none

/-- The subdirectories list held by `storeC5`. -/
def subsC5 : List (String × JVal) :=
  [("s", .jobj [("files", .jarr [
    .jobj [("name", .jstr "main.txt"), ("type", .jstr "empty")]])])]

/-- The template fields held by `storeC5`. -/
def tfC5 : List (String × JVal) :=
  [("main_directory", .jstr "m"), ("subdirectories", .jobj subsC5)]

/-- A source directory `srcdir` with subdirectory `a` holding `f1.txt`
and an empty subdirectory `b` (the clone example of the spec). -/
def fsC7 : FS :=
  ⟨[["srcdir"], ["srcdir", "a"], ["srcdir", "b"]],
   [(["srcdir", "a", "f1.txt"], "x")]⟩

/-! Declared-structure functions for the generation claims: what a
validated template announces it will create, read off the document. -/

/-- The string value of a file entry's `name` (entries reaching generation
have one). -/
def entryName (e : JVal) : String :=
  match e with
  | .jobj ff =>
    match alookup "name" ff with
    | some (.jstr s) => s
    | _ => ""
  | _ => ""

/-- The string value of a file entry's `type`. -/
def entryType (e : JVal) : String :=
  match e with
  | .jobj ff =>
    match alookup "type" ff with
    | some (.jstr s) => s
    | _ => ""
  | _ => ""

/-- The string value of a file entry's `source`. -/
def entrySource (e : JVal) : String :=
  match e with
  | .jobj ff =>
    match alookup "source" ff with
    | some (.jstr s) => s
    | _ => ""
  | _ => ""

/-- The path at which the generation loop writes a file entry. -/
def entryTarget (subdirPath : FPath) (e : JVal) : FPath :=
  subdirPath ++ [entryName e]

/-- What the loop produces for one entry at filesystem state `fs`: the
file content (`""` for `empty`, the source bytes for `template`), or
`none` when the entry is skipped (missing source / unknown type). -/
def entryOutput (fs : FS) (e : JVal) : Option String :=
  if entryType e = "empty" then some ""
  else if entryType e = "template" then fs.lookupFile (pathComps (entrySource e))
  else none

/-- The warning the loop prints for one entry. -/
def entryWarn (fs : FS) (e : JVal) : List String :=
  if entryType e = "empty" then []
  else if entryType e = "template" then
    (match fs.lookupFile (pathComps (entrySource e)) with
     | some _ => []
     | none => ["Template file not found: " ++ entrySource e])
  else ["Unknown file type: " ++ entryType e]

/-- A string usable as one relative path component: nonempty, slash-free,
and not one of the special names `.`/`..` that the path model does not
resolve. -/
def saneComp (s : String) : Bool :=
  s ≠ "" && s ≠ "." && s ≠ ".." && !(s.data.contains '/')

/-- Shape of a file entry under which the generation loop cannot crash:
a dict with a sane string name and a recognized type, `template`-typed
entries carrying a string source. -/
def saneEntry (e : JVal) : Bool :=
  match e with
  | .jobj ff =>
    (match alookup "name" ff with
     | some (.jstr s) => saneComp s
     | _ => false) &&
    (match alookup "type" ff with
     | some (.jstr t) =>
       if t = "empty" then true
       else if t = "template" then
         (match alookup "source" ff with
          | some (.jstr _) => true
          | _ => false)
       else false
     | _ => false)
  | _ => false

/-- A subdirectory key as the generation claims assume it: empty (files
go directly under the main directory) or a single sane component. -/
def saneKey (k : String) : Bool := k = "" || saneComp k

/-- The `files` entries of a subdirectory value (shaped values only). -/
def filesOf (c : JVal) : List JVal :=
  match c with
  | .jobj cf =>
    match alookup "files" cf with
    | some (.jarr es) => es
    | _ => []
  | _ => []

/-- The directory created for one subdirectory key. -/
def subdirPathOf (mainPath : FPath) (k : String) : FPath :=
  mainPath ++ pathComps k

/-- All file paths (with the content generation gives them at `fs`) that
a template's subdirectories declare, in loop order. -/
def declFiles (fs : FS) (mainPath : FPath) (subs : List (String × JVal)) :
    List (FPath × String) :=
  concatMap' (fun p => (filesOf p.2).filterMap (fun e =>
    (entryOutput fs e).map (fun c => (entryTarget (subdirPathOf mainPath p.1) e, c)))) subs

/-- All file target paths a template declares, in loop order. -/
def declTargets (mainPath : FPath) (subs : List (String × JVal)) : List FPath :=
  concatMap' (fun p => (filesOf p.2).map (entryTarget (subdirPathOf mainPath p.1))) subs

/-- The new directories the subdirectory loop creates, in loop order
(an empty key re-creates the main directory, which already exists). -/
def declDirs (mainPath : FPath) (subs : List (String × JVal)) : List FPath :=
  subs.filterMap (fun p =>
    if pathComps p.1 = [] then none else some (subdirPathOf mainPath p.1))

/-- The warnings of a whole generation run, in loop order. -/
def declWarns (fs : FS) (subs : List (String × JVal)) : List String :=
  concatMap' (fun p => concatMap' (entryWarn fs) (filesOf p.2)) subs

/-- A subdirectory value carrying a `files` list (the shape the generation
loop needs to iterate it). -/
def hasFilesList (c : JVal) : Bool :=
  match c with
  | .jobj cf =>
    match alookup "files" cf with
    | some (.jarr _) => true
    | _ => false
  | _ => false

/-- The content generation writes for an entry whose source (when
`template`-typed) exists: `""` for `empty`, the source bytes otherwise. -/
def entryContent (fs : FS) (e : JVal) : String :=
  if entryType e = "empty" then ""
  else (fs.lookupFile (pathComps (entrySource e))).getD ""

/-- All declared files with their contents (used when every source
exists: one file per declared entry). -/
def declFilesAll (fs : FS) (mainPath : FPath) (subs : List (String × JVal)) :
    List (FPath × String) :=
  concatMap' (fun p => (filesOf p.2).map (fun e =>
    (entryTarget (subdirPathOf mainPath p.1) e, entryContent fs e))) subs

/-- The files `generate_default`'s loop creates: only the `empty`-typed
entries, always with empty content. -/
def declEmptyFiles (mainPath : FPath) (subs : List (String × JVal)) :
    List (FPath × String) :=
  concatMap' (fun p => (filesOf p.2).filterMap (fun e =>
    if entryType e = "empty" then
      some (entryTarget (subdirPathOf mainPath p.1) e, "")
    else none)) subs

/-- A validated template with one template-typed file whose source
exists: used against the `--generate` CLI path. -/
def tC6 : JVal := .jobj [
  ("main_directory", .jstr "Acme-042"),
  ("subdirectories", .jobj [
    ("a", .jobj [("files", .jarr [
      .jobj [("name", .jstr "g.txt"), ("type", .jstr "template"),
             ("source", .jstr "srcs/g")]])])])]

/-- Store serving `tC6` as the default template. -/
def storeC6 : TStore := fun p =>
  if p = ["templates", "defaults", "ace_basic.json"] then some (.ok tC6) else none

/-- Filesystem with a fresh output root and the existing source file. -/
def fsC6 : FS := ⟨[["out"], ["srcs"]], [(["srcs", "g"], "hello")]⟩

/-- A validated template declaring one file entry whose name is the empty
string. -/
def tC1ce : JVal := .jobj [
  ("main_directory", .jstr "m"),
  ("subdirectories", .jobj [
    ("s", .jobj [("files", .jarr [
      .jobj [("name", .jstr ""), ("type", .jstr "empty")]])])])]

/-- A concrete two-cycle run exercising the seen-set theorem. -/
def envC9a : PollEnv :=
  ⟨["a.json"], fun _ => some (.ok (.jobj [("project_name", .jstr "Acme"),
    ("project_number", .jstr "042")])), fun _ => false, fun _ => true⟩

/-- Second cycle: the same file is still present, plus a broken one. -/
def envC9b : PollEnv :=
  ⟨["a.json", "b.json"], fun _ => some (.error "JSONDecodeError"),
   fun _ => true, fun _ => false⟩

/-- A validated template used to witness the declared-structure theorem:
an empty key, a two-entry subdirectory (one empty file, one copied from
an existing source), and a file-less subdirectory. -/
def subsC1w : List (String × JVal) := [
  ("", .jobj [("files", .jarr [
    .jobj [("name", .jstr "root.txt"), ("type", .jstr "empty")]])]),
  ("docs", .jobj [("files", .jarr [
    .jobj [("name", .jstr "a.txt"), ("type", .jstr "empty")],
    .jobj [("name", .jstr "g.txt"), ("type", .jstr "template"),
           ("source", .jstr "srcs/g")]])]),
  ("b", .jobj [("files", .jarr [])])]

/-- The witness template's top-level fields. -/
def tfC1w : List (String × JVal) := [
  ("main_directory", .jstr "proj"),
  ("subdirectories", .jobj subsC1w)]

/-- Witness filesystem: a fresh output root and the copy source. -/
def fsC1w : FS := ⟨[["out"], ["srcs"]], [(["srcs", "g"], "hello")]⟩

/-- Subdirectories of the CLI-path witness template: an empty-typed file,
a template-typed file whose source exists, and one whose source is
missing. -/
def subsC6w : List (String × JVal) := [
  ("a", .jobj [("files", .jarr [
    .jobj [("name", .jstr "keep.txt"), ("type", .jstr "empty")],
    .jobj [("name", .jstr "g.txt"), ("type", .jstr "template"),
           ("source", .jstr "srcs/g")],
    .jobj [("name", .jstr "h.txt"), ("type", .jstr "template"),
           ("source", .jstr "srcs/h")]])])]

/-- Top-level fields of the CLI-path witness template; the main directory
is already the value `modify` would set for name `Acme`, number `042`. -/
def tfC6w : List (String × JVal) := [
  ("main_directory", .jstr "Acme-042"),
  ("subdirectories", .jobj subsC6w)]

/-- Store serving the CLI-path witness template. -/
def storeC6w : TStore := fun p =>
  if p = ["templates", "defaults", "tw.json"] then some (.ok (.jobj tfC6w)) else none

/-- Witness filesystem for the CLI path: `srcs/g` exists, `srcs/h` does
not. -/
def fsC6w : FS := ⟨[["out"], ["srcs"]], [(["srcs", "g"], "hello")]⟩

/-! ## Basic lemmas -/

theorem except_bind_ok {ε α β : Type} (a : α) (f : α → Except ε β) :
    (Except.ok a >>= f) = f a := rfl

theorem except_bind_err {ε α β : Type} (e : ε) (f : α → Except ε β) :
    ((Except.error e : Except ε α) >>= f) = .error e := rfl

theorem except_pure {ε α : Type} (a : α) : (pure a : Except ε α) = .ok a := rfl

theorem concatMap'_eq_nil {α β : Type} (f : α → List β) (l : List α) :
    concatMap' f l = [] ↔ ∀ x ∈ l, f x = [] := by
  induction l with
  | nil => simp [concatMap']
  | cons x rest ih => simp [concatMap', ih]

theorem concatMap'_append {α β : Type} (f : α → List β) (l₁ l₂ : List α) :
    concatMap' f (l₁ ++ l₂) = concatMap' f l₁ ++ concatMap' f l₂ := by
  induction l₁ with
  | nil => simp [concatMap']
  | cons x rest ih => simp [concatMap', ih]

/-! ## Claim C2: the validator's success condition -/

theorem validateFileEntry_eq_nil (sub : String) (fi : JVal) :
    validateFileEntry sub fi = [] ↔ fileEntryOK fi = true := by
  cases fi with
  | jobj ff =>
    simp only [validateFileEntry, fileEntryOK]
    cases hn : alookup "name" ff with
    | none => simp
    | some nv =>
      cases ht : alookup "type" ff with
      | none => simp
      | some tv =>
        by_cases h1 : (jeqStr tv "template" && !hasKey "source" ff) = true
        · simp [h1]
        · simp only [Bool.not_eq_true] at h1
          by_cases h2 : (jeqStr tv "empty" || jeqStr tv "template") = true
          · simp [h1, h2]
          · simp only [Bool.not_eq_true] at h2
            simp [h1, h2]
  | jnull => simp [validateFileEntry, fileEntryOK]
  | jbool b => simp [validateFileEntry, fileEntryOK]
  | jnum n => simp [validateFileEntry, fileEntryOK]
  | jstr s => simp [validateFileEntry, fileEntryOK]
  | jarr l => simp [validateFileEntry, fileEntryOK]

theorem validateSubdirEntry_eq_nil (p : String × JVal) :
    validateSubdirEntry p = [] ↔ subdirOK p = true := by
  obtain ⟨k, c⟩ := p
  cases c with
  | jobj cf =>
    simp only [validateSubdirEntry, subdirOK]
    cases hf : alookup "files" cf with
    | none => simp
    | some fv =>
      cases fv <;>
        simp [concatMap'_eq_nil, validateFileEntry_eq_nil, List.all_eq_true]
  | jnull => simp [validateSubdirEntry, subdirOK]
  | jbool b => simp [validateSubdirEntry, subdirOK]
  | jnum n => simp [validateSubdirEntry, subdirOK]
  | jstr s => simp [validateSubdirEntry, subdirOK]
  | jarr l => simp [validateSubdirEntry, subdirOK]

/-- Claim C2, corrected form: `validate` returns success (an empty error
sequence) iff the document is a dict carrying both `main_directory` and
`subdirectories`, `subdirectories` is a dict, every subdirectory value is
a dict with a `files` list, every file entry is a dict with `name` and
`type`, every `template`-typed entry has `source`, and every `type` is
`empty` or `template`.  (The claim's four conditions alone are necessary
but not sufficient — see the counterexample.) -/
theorem C2_validate_success_iff (t : JVal) (errs : List String)
    (h : validate_template t = .ok errs) :
    errs = [] ↔ validDocOK t = true := by
  cases t with
  | jnull => simp [validate_template, pyContains, except_bind_err] at h
  | jbool b => simp [validate_template, pyContains, except_bind_err] at h
  | jnum n => simp [validate_template, pyContains, except_bind_err] at h
  | jstr s =>
    simp only [validate_template, pyContains, except_bind_ok] at h
    by_cases hs : isInfixOfL "subdirectories".data s.data = true
    · simp [hs, pyGetItem, except_bind_err] at h
    · simp only [Bool.not_eq_true] at hs
      simp only [hs, Bool.false_eq_true, if_false, except_pure, except_bind_ok] at h
      injection h with h
      subst h
      cases hm : isInfixOfL "main_directory".data s.data <;>
        simp [hm, validDocOK]
  | jarr l =>
    simp only [validate_template, pyContains, except_bind_ok] at h
    by_cases hs : (l.any (fun v => jeqStr v "subdirectories")) = true
    · simp [hs, pyGetItem, except_bind_err] at h
    · simp only [Bool.not_eq_true] at hs
      simp only [hs, Bool.false_eq_true, if_false, except_pure, except_bind_ok] at h
      injection h with h
      subst h
      cases hm : (l.any (fun v => jeqStr v "main_directory")) <;>
        simp [hm, validDocOK]
  | jobj tf =>
    simp only [validate_template, pyContains, except_bind_ok] at h
    cases hsub : alookup "subdirectories" tf with
    | none =>
      have hks : hasKey "subdirectories" tf = false := by simp [hasKey, hsub]
      simp only [hks, Bool.false_eq_true, if_false, except_pure, except_bind_ok] at h
      injection h with h
      subst h
      by_cases hm : hasKey "main_directory" tf = true <;>
        simp [hm, validDocOK, hsub]
    | some sv =>
      have hks : hasKey "subdirectories" tf = true := by simp [hasKey, hsub]
      simp only [hks, if_true, pyGetItem, hsub, except_bind_ok] at h
      cases sv with
      | jobj subs =>
        simp only [JVal.isObj, Bool.not_true, Bool.false_eq_true, if_false,
          except_pure, except_bind_ok, List.append_nil] at h
        injection h with h
        subst h
        by_cases hm : hasKey "main_directory" tf = true <;>
          simp [hm, validDocOK, hsub, List.append_eq_nil, concatMap'_eq_nil,
            validateSubdirEntry_eq_nil, List.all_eq_true]
      | jnull =>
        simp only [JVal.isObj, Bool.not_false, if_true, except_pure, except_bind_ok,
          List.append_nil] at h
        injection h with h
        subst h
        by_cases hm : hasKey "main_directory" tf = true <;>
          simp [hm, validDocOK, hsub]
      | jbool b =>
        simp only [JVal.isObj, Bool.not_false, if_true, except_pure, except_bind_ok,
          List.append_nil] at h
        injection h with h
        subst h
        by_cases hm : hasKey "main_directory" tf = true <;>
          simp [hm, validDocOK, hsub]
      | jnum n =>
        simp only [JVal.isObj, Bool.not_false, if_true, except_pure, except_bind_ok,
          List.append_nil] at h
        injection h with h
        subst h
        by_cases hm : hasKey "main_directory" tf = true <;>
          simp [hm, validDocOK, hsub]
      | jstr s =>
        simp only [JVal.isObj, Bool.not_false, if_true, except_pure, except_bind_ok,
          List.append_nil] at h
        injection h with h
        subst h
        by_cases hm : hasKey "main_directory" tf = true <;>
          simp [hm, validDocOK, hsub]
      | jarr l2 =>
        simp only [JVal.isObj, Bool.not_false, if_true, except_pure, except_bind_ok,
          List.append_nil] at h
        injection h with h
        subst h
        by_cases hm : hasKey "main_directory" tf = true <;>
          simp [hm, validDocOK, hsub]

/-- The claim's four conditions hold of the empty document, yet validation
fails on it (both required keys are missing): the conditions are not
sufficient, refuting the claimed equivalence. -/
theorem C2_counterexample :
    claimedValidConds (.jobj []) = true ∧
      validate_template (.jobj []) ≠ .ok [] := by
  refine ⟨rfl, fun h => ?_⟩
  rw [show validate_template (.jobj []) =
      .ok ["Missing required key: \x27main_directory\x27",
           "Missing required key: \x27subdirectories\x27"] from rfl] at h
  injection h with h
  exact List.noConfusion h

theorem C2_witness :
    validate_template tC2w = .ok [] ∧ (([] : List String) = [] ↔ validDocOK tC2w = true) :=
  ⟨rfl, C2_validate_success_iff tC2w [] rfl⟩

/-! ## Claim C4: `modify_template` -/

theorem alookup_setKey_self (k : String) (v : JVal) (l : List (String × JVal)) :
    alookup k (setKey k v l) = some v := by
  induction l with
  | nil => simp [setKey, alookup]
  | cons p rest ih =>
    obtain ⟨k', w⟩ := p
    by_cases hk : k' = k <;> simp [setKey, alookup, hk, ih]

theorem alookup_setKey_ne (k k2 : String) (v : JVal) (l : List (String × JVal))
    (h : k2 ≠ k) : alookup k2 (setKey k v l) = alookup k2 l := by
  induction l with
  | nil => simp [setKey, alookup, Ne.symm h]
  | cons p rest ih =>
    obtain ⟨k', w⟩ := p
    by_cases hk : k' = k
    · subst hk
      simp [setKey, alookup, Ne.symm h]
    · simp [setKey, alookup, hk, ih]

theorem setKey_same (k : String) (v : JVal) (l : List (String × JVal))
    (h : alookup k l = some v) : setKey k v l = l := by
  induction l with
  | nil => simp [alookup] at h
  | cons p rest ih =>
    obtain ⟨k', w⟩ := p
    by_cases hk : k' = k
    · subst hk
      simp [alookup] at h
      simp [setKey, h]
    · simp [alookup, hk] at h
      simp [setKey, hk, ih h]

theorem replaceFuel_of_not_contained (pat rep s : List Char) (n : Nat)
    (h : isInfixOfL pat s = false) : replaceFuel pat rep n s = s := by
  induction s generalizing n with
  | nil => cases n <;> simp [replaceFuel]
  | cons c rest ih =>
    simp only [isInfixOfL, Bool.or_eq_false_iff] at h
    cases n with
    | zero => simp [replaceFuel]
    | succ m =>
      simp only [replaceFuel]
      rw [if_neg (by simp [h.1]), ih m h.2]

theorem pyReplace_of_not_in (s pat rep : String) (h : strIn pat s = false) :
    pyReplace s pat rep = s := by
  unfold pyReplace
  rw [replaceFuel_of_not_contained pat.data rep.data s.data s.data.length h]

theorem modifyFileElem_eq_spec (pn : String) (e : JVal)
    (h : entryShapeOK e = true) :
    modifyFileElem pn e = .ok (specFileElem pn e) := by
  cases e with
  | jobj ff =>
    simp only [entryShapeOK] at h
    cases hn : alookup "name" ff with
    | none =>
      simp [modifyFileElem, specFileElem, pyContains, hasKey, hn,
        except_bind_ok, except_pure]
    | some nv =>
      cases nv with
      | jstr ns =>
        simp only [modifyFileElem, specFileElem, pyContains, hasKey, hn,
          Option.isSome_some, if_true, pyGetItem, except_bind_ok]
        by_cases ht : isInfixOfL "xxxxx".data ns.data = true
        · simp [ht, except_pure]
        · simp only [Bool.not_eq_true] at ht
          simp only [ht, Bool.false_eq_true, if_false, except_pure]
          rw [pyReplace_of_not_in ns "xxxxx" pn ht,
            setKey_same "name" (.jstr ns) ff hn]
      | jnull => rw [hn] at h; exact absurd h (by simp)
      | jbool b => rw [hn] at h; exact absurd h (by simp)
      | jnum m => rw [hn] at h; exact absurd h (by simp)
      | jarr l => rw [hn] at h; exact absurd h (by simp)
      | jobj l => rw [hn] at h; exact absurd h (by simp)
  | jnull => simp [entryShapeOK] at h
  | jbool b => simp [entryShapeOK] at h
  | jnum n => simp [entryShapeOK] at h
  | jstr s => simp [entryShapeOK] at h
  | jarr l => simp [entryShapeOK] at h

theorem emapM_ok_of_forall {a b : Type} (f : a → Except String b) (g : a → b)
    (l : List a) (h : ∀ x ∈ l, f x = .ok (g x)) :
    emapM f l = .ok (l.map g) := by
  induction l with
  | nil => simp [emapM]
  | cons x rest ih =>
    simp only [emapM, h x (List.mem_cons_self x rest), except_bind_ok,
      ih (fun y hy => h y (List.mem_cons_of_mem x hy)), except_pure, List.map]

theorem modifyContents_eq_spec (pn : String) (c : JVal)
    (h : contentsShapeOK c = true) :
    modifyContents pn c = .ok (specContents pn c) := by
  cases c with
  | jobj cf =>
    simp only [contentsShapeOK] at h
    cases hf : alookup "files" cf with
    | none =>
      simp [modifyContents, specContents, pyContains, hasKey, hf,
        except_bind_ok, except_pure]
    | some fv =>
      cases fv with
      | jarr es =>
        rw [hf] at h
        simp only [List.all_eq_true] at h
        simp only [modifyContents, specContents, pyContains, hasKey, hf,
          Option.isSome_some, if_true, pyGetItem, except_bind_ok, pyIter]
        rw [emapM_ok_of_forall (modifyFileElem pn) (specFileElem pn) es
          (fun e he => modifyFileElem_eq_spec pn e (h e he))]
        rfl
      | jnull => rw [hf] at h; exact absurd h (by simp)
      | jbool b => rw [hf] at h; exact absurd h (by simp)
      | jnum m => rw [hf] at h; exact absurd h (by simp)
      | jstr s => rw [hf] at h; exact absurd h (by simp)
      | jobj l => rw [hf] at h; exact absurd h (by simp)
  | jnull => simp [contentsShapeOK] at h
  | jbool b => simp [contentsShapeOK] at h
  | jnum n => simp [contentsShapeOK] at h
  | jstr s => simp [contentsShapeOK] at h
  | jarr l => simp [contentsShapeOK] at h

theorem modify_eq_spec (t : JVal) (pn pname : String) (h : ModShape t = true) :
    modify_template t pn pname = .ok (modifySpec t pn pname) := by
  cases t with
  | jobj tf =>
    simp only [ModShape] at h
    cases hsub : alookup "subdirectories" tf with
    | none => rw [hsub] at h; exact absurd h (by simp)
    | some sv =>
      cases sv with
      | jobj subs =>
        rw [hsub] at h
        simp only [List.all_eq_true] at h
        have hsub1 : alookup "subdirectories"
            (setKey "main_directory" (.jstr (pname ++ "-" ++ pn)) tf) =
            some (.jobj subs) := by
          rw [alookup_setKey_ne _ _ _ _ (by decide)]
          exact hsub
        simp only [modify_template, modifySpec, pyGetItem, hsub1, except_bind_ok]
        rw [emapM_ok_of_forall _ (fun p => (p.1, specContents pn p.2)) subs
          (fun p hp => by
            simp only [modifyContents_eq_spec pn p.2 (h p hp), except_bind_ok,
              except_pure])]
        rfl
      | jnull => rw [hsub] at h; exact absurd h (by simp)
      | jbool b => rw [hsub] at h; exact absurd h (by simp)
      | jnum n => rw [hsub] at h; exact absurd h (by simp)
      | jstr s => rw [hsub] at h; exact absurd h (by simp)
      | jarr l => rw [hsub] at h; exact absurd h (by simp)
  | jnull => simp [ModShape] at h
  | jbool b => simp [ModShape] at h
  | jnum n => simp [ModShape] at h
  | jstr s => simp [ModShape] at h
  | jarr l => simp [ModShape] at h

theorem map_eq_self_of_forall {a : Type} (f : a → a) (l : List a)
    (h : ∀ x ∈ l, f x = x) : l.map f = l := by
  induction l with
  | nil => simp
  | cons x rest ih =>
    simp [h x (List.mem_cons_self x rest), ih (fun y hy => h y (List.mem_cons_of_mem x hy))]

theorem entryShapeOK_spec (pn : String) (e : JVal) (h : entryShapeOK e = true) :
    entryShapeOK (specFileElem pn e) = true := by
  cases e with
  | jobj ff =>
    simp only [entryShapeOK] at h
    cases hn : alookup "name" ff with
    | none => simp [specFileElem, hn, entryShapeOK]
    | some nv =>
      cases nv with
      | jstr ns => simp [specFileElem, hn, entryShapeOK, alookup_setKey_self]
      | jnull => rw [hn] at h; exact absurd h (by simp)
      | jbool b => rw [hn] at h; exact absurd h (by simp)
      | jnum m => rw [hn] at h; exact absurd h (by simp)
      | jarr l => rw [hn] at h; exact absurd h (by simp)
      | jobj l => rw [hn] at h; exact absurd h (by simp)
  | jnull => simp [entryShapeOK] at h
  | jbool b => simp [entryShapeOK] at h
  | jnum n => simp [entryShapeOK] at h
  | jstr s => simp [entryShapeOK] at h
  | jarr l => simp [entryShapeOK] at h

theorem contentsShapeOK_spec (pn : String) (c : JVal)
    (h : contentsShapeOK c = true) :
    contentsShapeOK (specContents pn c) = true := by
  cases c with
  | jobj cf =>
    simp only [contentsShapeOK] at h
    cases hf : alookup "files" cf with
    | none => simp [specContents, hf, contentsShapeOK]
    | some fv =>
      cases fv with
      | jarr es =>
        rw [hf] at h
        simp only [List.all_eq_true] at h
        simp only [specContents, hf, contentsShapeOK, alookup_setKey_self,
          List.all_eq_true]
        intro e he
        obtain ⟨e0, he0, rfl⟩ := List.mem_map.mp he
        exact entryShapeOK_spec pn e0 (h e0 he0)
      | jnull => rw [hf] at h; exact absurd h (by simp)
      | jbool b => rw [hf] at h; exact absurd h (by simp)
      | jnum m => rw [hf] at h; exact absurd h (by simp)
      | jstr s => rw [hf] at h; exact absurd h (by simp)
      | jobj l => rw [hf] at h; exact absurd h (by simp)
  | jnull => simp [contentsShapeOK] at h
  | jbool b => simp [contentsShapeOK] at h
  | jnum n => simp [contentsShapeOK] at h
  | jstr s => simp [contentsShapeOK] at h
  | jarr l => simp [contentsShapeOK] at h

theorem ModShape_spec (t : JVal) (pn pname : String) (h : ModShape t = true) :
    ModShape (modifySpec t pn pname) = true := by
  cases t with
  | jobj tf =>
    simp only [ModShape] at h
    cases hsub : alookup "subdirectories" tf with
    | none => rw [hsub] at h; exact absurd h (by simp)
    | some sv =>
      cases sv with
      | jobj subs =>
        rw [hsub] at h
        simp only [List.all_eq_true] at h
        have hsub1 : alookup "subdirectories"
            (setKey "main_directory" (.jstr (pname ++ "-" ++ pn)) tf) =
            some (.jobj subs) := by
          rw [alookup_setKey_ne _ _ _ _ (by decide)]; exact hsub
        simp only [modifySpec, hsub1, ModShape, alookup_setKey_self,
          List.all_eq_true]
        intro p hp
        obtain ⟨p0, hp0, rfl⟩ := List.mem_map.mp hp
        exact contentsShapeOK_spec pn p0.2 (h p0 hp0)
      | jnull => rw [hsub] at h; exact absurd h (by simp)
      | jbool b => rw [hsub] at h; exact absurd h (by simp)
      | jnum n => rw [hsub] at h; exact absurd h (by simp)
      | jstr s => rw [hsub] at h; exact absurd h (by simp)
      | jarr l => rw [hsub] at h; exact absurd h (by simp)
  | jnull => simp [ModShape] at h
  | jbool b => simp [ModShape] at h
  | jnum n => simp [ModShape] at h
  | jstr s => simp [ModShape] at h
  | jarr l => simp [ModShape] at h

theorem mainDirOf_spec (t : JVal) (pn pname : String) (h : ModShape t = true) :
    mainDirOf (modifySpec t pn pname) = some (.jstr (pname ++ "-" ++ pn)) := by
  cases t with
  | jobj tf =>
    simp only [ModShape] at h
    cases hsub : alookup "subdirectories" tf with
    | none => rw [hsub] at h; exact absurd h (by simp)
    | some sv =>
      have hmain : alookup "main_directory"
          (setKey "main_directory" (.jstr (pname ++ "-" ++ pn)) tf) =
          some (.jstr (pname ++ "-" ++ pn)) := alookup_setKey_self _ _ _
      cases sv with
      | jobj subs =>
        have hsub1 : alookup "subdirectories"
            (setKey "main_directory" (.jstr (pname ++ "-" ++ pn)) tf) =
            some (.jobj subs) := by
          rw [alookup_setKey_ne _ _ _ _ (by decide)]; exact hsub
        simp only [modifySpec, hsub1, mainDirOf]
        rw [alookup_setKey_ne _ _ _ _ (by decide)]
        exact hmain
      | jnull => rw [hsub] at h; exact absurd h (by simp)
      | jbool b => rw [hsub] at h; exact absurd h (by simp)
      | jnum n => rw [hsub] at h; exact absurd h (by simp)
      | jstr s => rw [hsub] at h; exact absurd h (by simp)
      | jarr l => rw [hsub] at h; exact absurd h (by simp)
  | jnull => simp [ModShape] at h
  | jbool b => simp [ModShape] at h
  | jnum n => simp [ModShape] at h
  | jstr s => simp [ModShape] at h
  | jarr l => simp [ModShape] at h

theorem specFileElem_fixed (pn : String) (e : JVal) (hs : entryShapeOK e = true)
    (ht : entryTokenFree e = true) : specFileElem pn e = e := by
  cases e with
  | jobj ff =>
    cases hn : alookup "name" ff with
    | none => simp [specFileElem, hn]
    | some nv =>
      cases nv with
      | jstr ns =>
        simp only [entryTokenFree, hn, Bool.not_eq_true'] at ht
        simp only [specFileElem, hn]
        rw [pyReplace_of_not_in ns "xxxxx" pn ht, setKey_same "name" (.jstr ns) ff hn]
      | jnull => simp [entryShapeOK, hn] at hs
      | jbool b => simp [entryShapeOK, hn] at hs
      | jnum m => simp [entryShapeOK, hn] at hs
      | jarr l => simp [entryShapeOK, hn] at hs
      | jobj l => simp [entryShapeOK, hn] at hs
  | jnull => simp [specFileElem]
  | jbool b => simp [specFileElem]
  | jnum n => simp [specFileElem]
  | jstr s => simp [specFileElem]
  | jarr l => simp [specFileElem]

theorem specContents_fixed (pn : String) (c : JVal)
    (hs : contentsShapeOK c = true) (ht : contentsTokenFree c = true) :
    specContents pn c = c := by
  cases c with
  | jobj cf =>
    cases hf : alookup "files" cf with
    | none => simp [specContents, hf]
    | some fv =>
      cases fv with
      | jarr es =>
        simp only [contentsShapeOK, hf, List.all_eq_true] at hs
        simp only [contentsTokenFree, hf, List.all_eq_true] at ht
        simp only [specContents, hf]
        rw [map_eq_self_of_forall _ es
          (fun e he => specFileElem_fixed pn e (hs e he) (ht e he))]
        rw [setKey_same "files" (.jarr es) cf hf]
      | jnull => simp [contentsShapeOK, hf] at hs
      | jbool b => simp [contentsShapeOK, hf] at hs
      | jnum m => simp [contentsShapeOK, hf] at hs
      | jstr s => simp [contentsShapeOK, hf] at hs
      | jobj l => simp [contentsShapeOK, hf] at hs
  | jnull => simp [contentsShapeOK] at hs
  | jbool b => simp [contentsShapeOK] at hs
  | jnum n => simp [contentsShapeOK] at hs
  | jstr s => simp [contentsShapeOK] at hs
  | jarr l => simp [contentsShapeOK] at hs

theorem modifySpec_fixed (t : JVal) (pn pname : String)
    (hs : ModShape t = true)
    (hm : mainDirOf t = some (.jstr (pname ++ "-" ++ pn)))
    (ht : docTokenFree t = true) : modifySpec t pn pname = t := by
  cases t with
  | jobj tf =>
    simp only [mainDirOf] at hm
    have htf1 : setKey "main_directory" (.jstr (pname ++ "-" ++ pn)) tf = tf :=
      setKey_same _ _ _ hm
    simp only [ModShape] at hs
    cases hsub : alookup "subdirectories" tf with
    | none => rw [hsub] at hs; exact absurd hs (by simp)
    | some sv =>
      cases sv with
      | jobj subs =>
        rw [hsub] at hs
        simp only [List.all_eq_true] at hs
        simp only [docTokenFree, hsub, List.all_eq_true] at ht
        simp only [modifySpec, htf1, hsub]
        rw [map_eq_self_of_forall _ subs (fun p hp => by
          rw [specContents_fixed pn p.2 (hs p hp) (ht p hp)])]
        rw [setKey_same "subdirectories" (.jobj subs) tf hsub]
      | jnull => rw [hsub] at hs; exact absurd hs (by simp)
      | jbool b => rw [hsub] at hs; exact absurd hs (by simp)
      | jnum n => rw [hsub] at hs; exact absurd hs (by simp)
      | jstr s => rw [hsub] at hs; exact absurd hs (by simp)
      | jarr l => rw [hsub] at hs; exact absurd hs (by simp)
  | jnull => simp [ModShape] at hs
  | jbool b => simp [ModShape] at hs
  | jnum n => simp [ModShape] at hs
  | jstr s => simp [ModShape] at hs
  | jarr l => simp [ModShape] at hs

/-- Claim C4, corrected: on every template whose shape `modify` can
traverse, `modify` sets `main_directory` to
`"{project_name}-{project_number}"` and rewrites every file entry's name
by Python `replace("xxxxx", project_number)` (the `modifySpec` form); a
second application with the same arguments leaves the template unchanged
provided the once-modified template's file names are free of the `xxxxx`
token.  (Unconditional idempotence fails: a project number that
reintroduces the token changes the names again — see the
counterexample.) -/
theorem C4_modify_semantics (t : JVal) (pn pname : String)
    (h : ModShape t = true) :
    modify_template t pn pname = .ok (modifySpec t pn pname)
    ∧ mainDirOf (modifySpec t pn pname) = some (.jstr (pname ++ "-" ++ pn))
    ∧ (docTokenFree (modifySpec t pn pname) = true →
        modify_template (modifySpec t pn pname) pn pname =
          .ok (modifySpec t pn pname)) := by
  refine ⟨modify_eq_spec t pn pname h, mainDirOf_spec t pn pname h, fun htf => ?_⟩
  have h2 := ModShape_spec t pn pname h
  rw [modify_eq_spec _ pn pname h2,
    modifySpec_fixed _ pn pname h2 (mainDirOf_spec t pn pname h) htf]

/-- With `project_number = "xxxxxy"` the replacement reintroduces the
token, so the second application changes the file name again
(`xxxxx → xxxxxy → xxxxxyy`): `modify` is not idempotent for every
argument pair, refuting the claim as stated. -/
theorem C4_counterexample :
    modify_template tC4 "xxxxxy" "A" = .ok tC4once
    ∧ modify_template tC4once "xxxxxy" "A" = .ok tC4twice
    ∧ tC4once ≠ tC4twice := by
  refine ⟨rfl, rfl, fun hEq => ?_⟩
  have hns := congrArg namesOf hEq
  rw [show namesOf tC4once = ["xxxxxy"] from rfl,
    show namesOf tC4twice = ["xxxxxyy"] from rfl] at hns
  exact absurd hns (by decide)

theorem C4_witness :
    ModShape tC4 = true
    ∧ (modify_template tC4 "042" "Acme" = .ok (modifySpec tC4 "042" "Acme")
       ∧ mainDirOf (modifySpec tC4 "042" "Acme") =
           some (.jstr ("Acme" ++ "-" ++ "042"))
       ∧ (docTokenFree (modifySpec tC4 "042" "Acme") = true →
           modify_template (modifySpec tC4 "042" "Acme") "042" "Acme" =
             .ok (modifySpec tC4 "042" "Acme"))) :=
  ⟨rfl, C4_modify_semantics tC4 "042" "Acme" rfl⟩

/-! ## Claim C8: `load_template` -/

/-- Claim C8, corrected: `load` resolves the namespace prefix to a store
directory; an absent file yields `None` (the caller handles it), but a
present file with malformed JSON makes `json.load` raise, and
`load_template` has no handler — the exception propagates instead of a
`None` return. -/
theorem C8_load_behavior (store : TStore) (name : String) :
    (store (resolvePath name) = none → load_template store name = .ok none)
    ∧ (∀ e, store (resolvePath name) = some (.error e) →
        load_template store name = .error e)
    ∧ (∀ d, store (resolvePath name) = some (.ok d) →
        load_template store name = .ok (some d)) := by
  refine ⟨fun h => ?_, fun e h => ?_, fun d h => ?_⟩ <;>
    simp [load_template, h]

/-- A store whose `user_created/bad.json` holds malformed JSON: `load`
raises the decode error rather than returning `None`, refuting the claim
as stated. -/
theorem C8_counterexample :
    storeC8 (resolvePath "user_created/bad.json") =
      some (.error "json.decoder.JSONDecodeError: Expecting value")
    ∧ load_template storeC8 "user_created/bad.json" ≠ .ok none
    ∧ load_template storeC8 "user_created/bad.json" =
        .error "json.decoder.JSONDecodeError: Expecting value" := by
  refine ⟨rfl, fun h => ?_, rfl⟩
  rw [show load_template storeC8 "user_created/bad.json" =
      .error "json.decoder.JSONDecodeError: Expecting value" from rfl] at h
  exact Except.noConfusion h

theorem C8_witness :
    load_template storeC8w "defaults/t.json" = .ok (some (.jobj []))
    ∧ load_template storeC8w "user_created/absent.json" = .ok none :=
  ⟨(C8_load_behavior storeC8w "defaults/t.json").2.2 (.jobj []) rfl,
   (C8_load_behavior storeC8w "user_created/absent.json").1 rfl⟩

/-! ## Claim C3: validation failure means zero filesystem mutation -/

/-- Everything `generate_from_template` does before the validation check
(loading, the optional parameter substitution, the falsiness test) is pure
document manipulation; so whenever the effective template fails
validation — or the flow stops even earlier — the filesystem is returned
untouched and the run does not complete. -/
theorem C3_invalid_template_no_mutation (store : TStore)
    (template_name output_dir pn pname : String) (fs : FS)
    (h : ∀ t, effectiveTemplate store template_name pn pname = .ok t →
        ¬ (validate_template t = .ok [])) :
    (generate_from_template store template_name output_dir pn pname fs).fs = fs
    ∧ (generate_from_template store template_name output_dir pn pname fs).outcome ≠
        .completed := by
  cases heff : effectiveTemplate store template_name pn pname with
  | error e => simp [generate_from_template, heff]
  | ok t =>
    have hval := h t heff
    by_cases hf : pyFalsy t = true
    · simp [generate_from_template, heff, hf]
    · simp only [generate_from_template, heff, hf, Bool.false_eq_true, if_false]
      cases hv : validate_template t with
      | error e => simp [generate, hv]
      | ok errs =>
        have hne : errs.isEmpty = false := by
          cases errs with
          | nil => exact absurd hv hval
          | cons x rest => rfl
        simp [generate, hv, hne]

theorem C3_witness :
    (generate_from_template storeC3 "user_created/bad_schema.json" "out" "" ""
        ⟨[["out"]], []⟩).fs = ⟨[["out"]], []⟩
    ∧ (generate_from_template storeC3 "user_created/bad_schema.json" "out" "" ""
        ⟨[["out"]], []⟩).outcome ≠ .completed := by
  refine C3_invalid_template_no_mutation storeC3 "user_created/bad_schema.json"
    "out" "" "" ⟨[["out"]], []⟩ (fun t ht => ?_)
  rw [show effectiveTemplate storeC3 "user_created/bad_schema.json" "" "" =
      .ok (.jobj [("main_directory", .jstr "m")]) from rfl] at ht
  injection ht with ht
  subst ht
  intro hv
  rw [show validate_template (.jobj [("main_directory", .jstr "m")]) =
      .ok ["Missing required key: \x27subdirectories\x27"] from rfl] at hv
  injection hv with hv
  exact List.noConfusion hv

/-! ## Claim C9: the watcher's seen set -/

theorem monitorCycle_seen (env : PollEnv) (seen : List String) :
    (monitorCycle env seen).2 =
      seen ++ env.current.filter (fun f => !seen.contains f) := rfl

theorem monitorCycle_fsts (env : PollEnv) (seen : List String) :
    (monitorCycle env seen).1.map Prod.fst =
      env.current.filter (fun f => !seen.contains f) := by
  simp only [monitorCycle, List.map_map]
  exact List.map_id _

/-- Claim C9: (a) the seen-set update after a poll cycle depends only on
the files found, not on any processing outcome (parse failures, missing
keys, subprocess failures included); (b) every discovered file is in the
seen set before the next cycle; (c) across any run the seen set only ever
grows, by exactly the processed filenames; (d) starting from a
duplicate-free seen set and duplicate-free directory listings, the final
seen set is duplicate-free — no filename is processed twice across the
whole run; (e) a filename already in the seen set is never processed in
any later cycle. -/
theorem C9_seen_set_monotone :
    (∀ (e1 e2 : PollEnv) (seen : List String), e1.current = e2.current →
      (monitorCycle e1 seen).2 = (monitorCycle e2 seen).2)
    ∧ (∀ (e : PollEnv) (seen : List String) (f : String), f ∈ e.current →
      f ∈ (monitorCycle e seen).2)
    ∧ (∀ (envs : List PollEnv) (seen : List String),
      (monitorRun envs seen).2 =
        seen ++ concatMap' (fun cyc => cyc.map Prod.fst) (monitorRun envs seen).1)
    ∧ (∀ (envs : List PollEnv) (seen : List String), seen.Nodup →
      (∀ e ∈ envs, e.current.Nodup) → (monitorRun envs seen).2.Nodup)
    ∧ (∀ (envs : List PollEnv) (seen : List String) (f : String), f ∈ seen →
      ∀ cyc ∈ (monitorRun envs seen).1, ∀ pr ∈ cyc, pr.1 ≠ f) := by
  refine ⟨?_, ?_, ?_, ?_, ?_⟩
  · intro e1 e2 seen h
    simp [monitorCycle, h]
  · intro e seen f hf
    rw [monitorCycle_seen]
    by_cases hc : seen.contains f = true
    · exact List.mem_append_left _ (by simpa using hc)
    · simp only [Bool.not_eq_true] at hc
      have hc' : f ∉ seen := by simpa using hc
      exact List.mem_append_right _ (List.mem_filter.mpr ⟨hf, by simp [hc']⟩)
  · intro envs
    induction envs with
    | nil => intro seen; simp [monitorRun, concatMap']
    | cons e rest ih =>
      intro seen
      simp only [monitorRun]
      rw [concatMap', monitorCycle_fsts, monitorCycle_seen e seen, ih,
        List.append_assoc]
  · intro envs
    induction envs with
    | nil => intro seen hs _; exact hs
    | cons e rest ih =>
      intro seen hs hc
      simp only [monitorRun]
      refine ih _ ?_ (fun e' he' => hc e' (List.mem_cons_of_mem e he'))
      rw [monitorCycle_seen]
      refine hs.append ((hc e (List.mem_cons_self e rest)).filter _) ?_
      intro a ha haf
      have h2 := (List.mem_filter.mp haf).2
      simp only [Bool.not_eq_true] at h2
      have : a ∉ seen := by simpa using h2
      exact this ha
  · intro envs
    induction envs with
    | nil =>
      intro seen f _ cyc hcyc
      exact absurd hcyc (List.not_mem_nil cyc)
    | cons e rest ih =>
      intro seen f hf cyc hcyc pr hpr
      simp only [monitorRun, List.mem_cons] at hcyc
      rcases hcyc with rfl | hcyc
      · simp only [monitorCycle] at hpr
        obtain ⟨g, hg, rfl⟩ := List.mem_map.mp hpr
        have hgf := (List.mem_filter.mp hg).2
        simp only [Bool.not_eq_true] at hgf
        have hgs : g ∉ seen := by simpa using hgf
        intro hEq
        exact hgs (by rw [show g = f from hEq]; exact hf)
      · exact ih _ f
          (by rw [monitorCycle_seen]; exact List.mem_append_left _ hf) cyc hcyc pr hpr

theorem C9_witness :
    ("a.json" ∈ (monitorCycle envC9a []).2)
    ∧ (monitorRun [envC9a, envC9b] []).2.Nodup
    ∧ (∀ cyc ∈ (monitorRun [envC9a, envC9b] ["c.json"]).1,
        ∀ pr ∈ cyc, pr.1 ≠ "c.json") :=
  ⟨C9_seen_set_monotone.2.1 envC9a [] "a.json" (by decide),
   C9_seen_set_monotone.2.2.2.1 [envC9a, envC9b] [] (by decide)
     (by intro e he; fin_cases he <;> decide),
   fun cyc hcyc pr hpr =>
     C9_seen_set_monotone.2.2.2.2 [envC9a, envC9b] ["c.json"] "c.json"
       (by decide) cyc hcyc pr hpr⟩

/-! ## Claim C5: `search_template` -/

theorem pyContains_searchable (q : String) (e : JVal)
    (h : searchableElem e = true) : pyContains e q = .ok (pyInB q e) := by
  cases e with
  | jstr s => rfl
  | jobj ff => rfl
  | jarr es => rfl
  | jnull => simp [searchableElem] at h
  | jbool b => simp [searchableElem] at h
  | jnum n => simp [searchableElem] at h

theorem anyInM_eq (q : String) (es : List JVal)
    (h : ∀ e ∈ es, searchableElem e = true) :
    anyInM q es = .ok (es.any (pyInB q)) := by
  induction es with
  | nil => simp [anyInM]
  | cons e rest ih =>
    simp only [anyInM, pyContains_searchable q e (h e (List.mem_cons_self e rest)),
      except_bind_ok]
    by_cases hb : pyInB q e = true
    · simp [hb]
    · simp only [Bool.not_eq_true] at hb
      simp [hb, ih (fun x hx => h x (List.mem_cons_of_mem e hx))]

theorem searchSubdir_eq (q : String) (p : String × JVal)
    (h : searchShapeContents p.2 = true) :
    searchSubdir q p = .ok (searchCondB q p) := by
  obtain ⟨k, c⟩ := p
  by_cases hk : strIn q k = true
  · simp [searchSubdir, searchCondB, hk]
  · simp only [Bool.not_eq_true] at hk
    cases c with
    | jobj cf =>
      simp only [searchShapeContents] at h
      cases hf : alookup "files" cf with
      | none => rw [hf] at h; exact absurd h (by simp)
      | some fv =>
        cases fv with
        | jarr es =>
          rw [hf] at h
          simp only [List.all_eq_true] at h
          simp only [searchSubdir, searchCondB, hk, Bool.false_eq_true, if_false,
            pyGetItem, hf, except_bind_ok, pyIter, Bool.false_or]
          exact anyInM_eq q es h
        | jnull => rw [hf] at h; exact absurd h (by simp)
        | jbool b => rw [hf] at h; exact absurd h (by simp)
        | jnum m => rw [hf] at h; exact absurd h (by simp)
        | jstr s => rw [hf] at h; exact absurd h (by simp)
        | jobj l => rw [hf] at h; exact absurd h (by simp)
    | jnull => simp [searchShapeContents] at h
    | jbool b => simp [searchShapeContents] at h
    | jnum n => simp [searchShapeContents] at h
    | jstr s => simp [searchShapeContents] at h
    | jarr l => simp [searchShapeContents] at h

theorem searchLoop_eq (q : String) (subs : List (String × JVal))
    (h : ∀ p ∈ subs, searchShapeContents p.2 = true) :
    searchLoop q subs = .ok ((subs.filter (searchCondB q)).map Prod.fst) := by
  induction subs with
  | nil => simp [searchLoop]
  | cons p rest ih =>
    simp only [searchLoop, searchSubdir_eq q p (h p (List.mem_cons_self p rest)),
      except_bind_ok, ih (fun x hx => h x (List.mem_cons_of_mem p hx)), except_pure]
    by_cases hc : searchCondB q p = true
    · simp [hc, List.filter_cons_of_pos]
    · simp only [Bool.not_eq_true] at hc
      simp [hc, List.filter_cons_of_neg]

/-- Claim C5, corrected: for a loaded, truthy template whose
`subdirectories` is a dict of dicts with `files` lists, `search` returns
exactly the keys whose own name contains the query as a substring or for
which Python `query in f` holds of some `files` element `f` — for the
dict-shaped entries of validated templates this tests membership among the
entry's keys (`name`/`type`/`source`), not substring of the filename; each
matching key appears once (given distinct keys). -/
theorem C5_search_semantics (store : TStore) (name query : String)
    (tf subs : List (String × JVal))
    (hload : load_template store name = .ok (some (.jobj tf)))
    (hfal : pyFalsy (.jobj tf) = false)
    (hsub : alookup "subdirectories" tf = some (.jobj subs))
    (hshape : subs.all (fun p => searchShapeContents p.2) = true) :
    search_template store name query =
      .ok (some ((subs.filter (searchCondB query)).map Prod.fst))
    ∧ ((subs.map Prod.fst).Nodup →
        ((subs.filter (searchCondB query)).map Prod.fst).Nodup) := by
  simp only [List.all_eq_true] at hshape
  constructor
  · simp only [search_template, hload, hfal, Bool.false_eq_true, if_false,
      pyGetItem, hsub, searchLoop_eq query subs hshape]
  · intro hnd
    exact hnd.sublist ((List.filter_sublist subs).map Prod.fst)

/-- A validated template with subdir `s` holding a file named `main.txt`:
the query `main` is a substring of the filename yet `search` reports
nothing, while the query `name` is a substring of no key or filename yet
`s` is reported (dict-key membership) — both directions of the claim
fail. -/
theorem C5_counterexample :
    strIn "main" "main.txt" = true
    ∧ search_template storeC5 "user_created/s.json" "main" = .ok (some [])
    ∧ strIn "name" "main.txt" = false
    ∧ strIn "name" "s" = false
    ∧ search_template storeC5 "user_created/s.json" "name" = .ok (some ["s"]) :=
  ⟨by decide, rfl, by decide, by decide, rfl⟩

theorem C5_witness :
    search_template storeC5 "user_created/s.json" "s" =
      .ok (some ((subsC5.filter (searchCondB "s")).map Prod.fst))
    ∧ ((subsC5.map Prod.fst).Nodup →
        ((subsC5.filter (searchCondB "s")).map Prod.fst).Nodup) :=
  C5_search_semantics storeC5 "user_created/s.json" "s" tfC5 subsC5
    rfl rfl rfl (by decide)

/-! ## Claims C7 and C10: `clone_directory` -/

theorem mem_concatMap' {a b : Type} (f : a → List b) (l : List a) (x : b) :
    x ∈ concatMap' f l ↔ ∃ y ∈ l, x ∈ f y := by
  induction l with
  | nil => simp [concatMap']
  | cons z rest ih => simp [concatMap', ih]

theorem alookup_eq_none_of_not_mem (k : String) (l : List (String × JVal))
    (h : k ∉ akeys l) : alookup k l = none := by
  induction l with
  | nil => rfl
  | cons p rest ih =>
    simp only [akeys, List.map_cons, List.mem_cons, not_or] at h
    simp only [alookup, if_neg (Ne.symm h.1)]
    exact ih (by simpa [akeys] using h.2)

theorem akeys_append (l1 l2 : List (String × JVal)) :
    akeys (l1 ++ l2) = akeys l1 ++ akeys l2 := by
  simp [akeys]

theorem buildSubs_go (root : FPath) (walk : List (FPath × List String))
    (acc : List (String × JVal))
    (h : (akeys acc ++ walk.map (fun q => relKey root q.1)).Nodup) :
    walk.foldl (fun acc q =>
      insertIfAbsent acc (relKey root q.1)
        (.jobj [("files", .jarr (q.2.map JVal.jstr))])) acc =
    acc ++ walk.map (fun q => (relKey root q.1,
      JVal.jobj [("files", .jarr (q.2.map JVal.jstr))])) := by
  induction walk generalizing acc with
  | nil => simp
  | cons q rest ih =>
    simp only [List.map_cons] at h
    have hnotin : relKey root q.1 ∉ akeys acc := by
      have hd := (List.nodup_append.mp h).2.2
      intro hmem
      exact hd hmem (List.mem_cons_self _ _)
    have hins : insertIfAbsent acc (relKey root q.1)
        (.jobj [("files", .jarr (q.2.map JVal.jstr))]) =
        acc ++ [(relKey root q.1, .jobj [("files", .jarr (q.2.map JVal.jstr))])] := by
      simp only [insertIfAbsent, hasKey,
        alookup_eq_none_of_not_mem _ _ hnotin, Option.isSome_none,
        Bool.false_eq_true, if_false]
    have hnd2 : (akeys (acc ++ [(relKey root q.1,
        JVal.jobj [("files", .jarr (q.2.map JVal.jstr))])]) ++
        rest.map (fun q => relKey root q.1)).Nodup := by
      rw [akeys_append, List.append_assoc]
      exact h
    simp only [List.foldl_cons, hins]
    rw [ih _ hnd2]
    simp

theorem buildSubs_eq (root : FPath) (walk : List (FPath × List String))
    (h : (walk.map (fun q => relKey root q.1)).Nodup) :
    buildSubs root walk =
      walk.map (fun q => (relKey root q.1,
        JVal.jobj [("files", .jarr (q.2.map JVal.jstr))])) := by
  have := buildSubs_go root walk [] (by simpa [akeys] using h)
  simpa [buildSubs] using this

theorem oswalk_mem (fs : FS) (root d : FPath) (fns : List String) :
    (d, fns) ∈ oswalk fs root ↔
      ((d = root ∨ (d ∈ fs.dirs ∧ root <+: d ∧ d ≠ root))
        ∧ fns = immediateFiles fs d) := by
  simp only [oswalk, List.mem_cons, List.mem_map, List.mem_filter, Prod.mk.injEq]
  constructor
  · rintro (⟨rfl, rfl⟩ | ⟨d0, ⟨hd0, hp⟩, rfl, rfl⟩)
    · exact ⟨Or.inl rfl, rfl⟩
    · simp only [Bool.and_eq_true, decide_eq_true_eq] at hp
      refine ⟨Or.inr ⟨hd0, ?_, hp.2⟩, rfl⟩
      exact List.isPrefixOf_iff_prefix.mp hp.1
  · rintro ⟨rfl | ⟨hd, hpre, hne⟩, rfl⟩
    · exact Or.inl ⟨rfl, rfl⟩
    · refine Or.inr ⟨d, ⟨hd, ?_⟩, rfl, rfl⟩
      simp only [Bool.and_eq_true, decide_eq_true_eq]
      exact ⟨List.isPrefixOf_iff_prefix.mpr hpre, hne⟩

theorem validate_clone_doc (mv : JVal) (subs : List (String × JVal)) :
    validate_template (.jobj [("main_directory", mv),
      ("subdirectories", .jobj subs)]) =
      .ok (concatMap' validateSubdirEntry subs) := rfl

theorem generate_aborted_of_errs (t : JVal) (errs : List String)
    (hv : validate_template t = .ok errs) (hne : errs ≠ [])
    (outp : FPath) (fs2 : FS) :
    generate t outp fs2 = ⟨fs2, [], .aborted⟩ := by
  have hie : errs.isEmpty = false := by
    cases errs with
    | nil => exact absurd rfl hne
    | cons x rest => rfl
  simp [generate, hv, hie]

/-- Claim C7: under a passing path validation (and, as holds for real
directory trees, distinct relative keys), `clone` produces exactly one
subdirectory entry per walked directory — the root keyed by the empty
string — each recording that directory's immediate file names as a bare
string list, with `main_directory` the cleaned path's base name; and the
walk visits exactly the root and the directories strictly below it. -/
theorem C7_clone_structure (fs : FS) (source_dir cleaned : String)
    (hv : validate_directory_path fs source_dir = some cleaned)
    (hnd : ((oswalk fs (pathComps cleaned)).map
      (fun q => relKey (pathComps cleaned) q.1)).Nodup) :
    clone_directory fs source_dir =
      some (.jobj [("main_directory", .jstr (basenameStr cleaned)),
        ("subdirectories", .jobj ((oswalk fs (pathComps cleaned)).map
          (fun q => (relKey (pathComps cleaned) q.1,
            JVal.jobj [("files", .jarr (q.2.map JVal.jstr))]))))])
    ∧ (∀ (d : FPath) (fns : List String),
        (d, fns) ∈ oswalk fs (pathComps cleaned) ↔
          ((d = pathComps cleaned ∨
            (d ∈ fs.dirs ∧ pathComps cleaned <+: d ∧ d ≠ pathComps cleaned))
            ∧ fns = immediateFiles fs d)) := by
  constructor
  · simp only [clone_directory, hv, buildSubs_eq _ _ hnd]
  · intro d fns
    exact oswalk_mem fs (pathComps cleaned) d fns

theorem C7_witness :
    clone_directory fsC7 "srcdir" =
      some (.jobj [("main_directory", .jstr "srcdir"),
        ("subdirectories", .jobj [
          ("", .jobj [("files", .jarr [])]),
          ("a", .jobj [("files", .jarr [.jstr "f1.txt"])]),
          ("b", .jobj [("files", .jarr [])])])]) :=
  (C7_clone_structure fsC7 "srcdir" "srcdir" rfl (by decide)).1

/-- Claim C10: a cloned template records file entries as bare strings, so
whenever the walked tree contains at least one file, validation of the
cloned template reports a file-entry-must-be-a-dictionary error and
`generate` on it aborts without touching the filesystem. -/
theorem C10_cloned_template_fails_validation (fs : FS)
    (source_dir cleaned : String) (d : FPath × List String) (t : JVal)
    (hv : validate_directory_path fs source_dir = some cleaned)
    (hnd : ((oswalk fs (pathComps cleaned)).map
      (fun q => relKey (pathComps cleaned) q.1)).Nodup)
    (hd : d ∈ oswalk fs (pathComps cleaned))
    (hne : d.2 ≠ [])
    (hc : clone_directory fs source_dir = some t) :
    validate_template t ≠ .ok []
    ∧ (∃ errs, validate_template t = .ok errs ∧
        ("File entry in \x27" ++ relKey (pathComps cleaned) d.1 ++
          "\x27 must be a dictionary.") ∈ errs)
    ∧ (∀ (outp : FPath) (fs2 : FS), generate t outp fs2 = ⟨fs2, [], .aborted⟩) := by
  simp only [clone_directory, hv] at hc
  injection hc with hc
  subst hc
  rw [buildSubs_eq _ _ hnd]
  set subs := (oswalk fs (pathComps cleaned)).map
    (fun q => (relKey (pathComps cleaned) q.1,
      JVal.jobj [("files", .jarr (q.2.map JVal.jstr))])) with hsubs
  have hval := validate_clone_doc (.jstr (basenameStr cleaned)) subs
  have hmem : ("File entry in \x27" ++ relKey (pathComps cleaned) d.1 ++
      "\x27 must be a dictionary.") ∈ concatMap' validateSubdirEntry subs := by
    refine (mem_concatMap' _ _ _).mpr
      ⟨(relKey (pathComps cleaned) d.1,
        JVal.jobj [("files", .jarr (d.2.map JVal.jstr))]),
        ?_, ?_⟩
    · rw [hsubs]
      exact List.mem_map_of_mem _ hd
    · show _ ∈ validateSubdirEntry (relKey (pathComps cleaned) d.1,
        JVal.jobj [("files", .jarr (d.2.map JVal.jstr))])
      cases hfns : d.2 with
      | nil => exact absurd hfns hne
      | cons fn rest =>
        rw [show validateSubdirEntry (relKey (pathComps cleaned) d.1,
          JVal.jobj [("files", .jarr ((fn :: rest).map JVal.jstr))]) =
            concatMap' (validateFileEntry (relKey (pathComps cleaned) d.1))
              ((fn :: rest).map JVal.jstr) from rfl]
        simp only [List.map_cons, concatMap', validateFileEntry]
        exact List.mem_append_left _ (List.mem_singleton.mpr rfl)
  have hneq : concatMap' validateSubdirEntry subs ≠ [] :=
    List.ne_nil_of_mem hmem
  refine ⟨fun hcon => ?_, ⟨_, hval, hmem⟩,
    fun outp fs2 => generate_aborted_of_errs _ _ hval hneq outp fs2⟩
  rw [hval] at hcon
  injection hcon with hcon
  exact hneq hcon

theorem C10_witness :
    validate_template (.jobj [("main_directory", .jstr "srcdir"),
      ("subdirectories", .jobj [
        ("", .jobj [("files", .jarr [])]),
        ("a", .jobj [("files", .jarr [.jstr "f1.txt"])]),
        ("b", .jobj [("files", .jarr [])])])]) ≠ .ok []
    ∧ (∃ errs, validate_template (.jobj [("main_directory", .jstr "srcdir"),
        ("subdirectories", .jobj [
          ("", .jobj [("files", .jarr [])]),
          ("a", .jobj [("files", .jarr [.jstr "f1.txt"])]),
          ("b", .jobj [("files", .jarr [])])])]) = .ok errs ∧
        ("File entry in \x27" ++ relKey (pathComps "srcdir") ["srcdir", "a"] ++
          "\x27 must be a dictionary.") ∈ errs)
    ∧ (∀ (outp : FPath) (fs2 : FS),
        generate (.jobj [("main_directory", .jstr "srcdir"),
          ("subdirectories", .jobj [
            ("", .jobj [("files", .jarr [])]),
            ("a", .jobj [("files", .jarr [.jstr "f1.txt"])]),
            ("b", .jobj [("files", .jarr [])])])]) outp fs2 =
          ⟨fs2, [], .aborted⟩) :=
  C10_cloned_template_fails_validation fsC7 "srcdir" "srcdir"
    (["srcdir", "a"], ["f1.txt"]) _ rfl (by decide) (by decide)
    (by decide) rfl

/-! ## Claims C1 and C6: filesystem and path lemmas -/

theorem splitRaw_no_slash (l : List Char) (h : '/' ∉ l) : splitRaw l = [l] := by
  induction l with
  | nil => rfl
  | cons c rest ih =>
    simp only [List.mem_cons, not_or] at h
    simp only [splitRaw, if_neg (Ne.symm h.1), ih h.2]

theorem pathComps_sane (s : String) (h : saneComp s = true) : pathComps s = [s] := by
  simp only [saneComp, Bool.and_eq_true, Bool.not_eq_true', decide_eq_true_eq] at h
  obtain ⟨⟨⟨h1, h2⟩, h3⟩, h4⟩ := h
  have hns : '/' ∉ s.data := by simpa using h4
  simp only [pathComps, splitRaw_no_slash s.data hns, List.map_cons, List.map_nil]
  rw [show String.mk s.data = s from rfl]
  simp [List.filter, h1, h2]

theorem pathInits_snoc (l : FPath) (a : String) :
    pathInits (l ++ [a]) = pathInits l ++ [l ++ [a]] := by
  induction l with
  | nil => rfl
  | cons c rest ih => simp [pathInits, ih]

theorem mem_pathInits_self (l : FPath) (h : l ≠ []) : l ∈ pathInits l := by
  induction l with
  | nil => exact absurd rfl h
  | cons c rest ih =>
    cases rest with
    | nil => exact List.mem_cons_self _ _
    | cons d rest2 =>
      exact List.mem_cons_of_mem _ (List.mem_map_of_mem _ (ih (by simp)))

theorem flookup_snoc_ne (l : List (FPath × String)) (p q : FPath) (c : String)
    (hq : q ≠ p) : flookup q (l ++ [(p, c)]) = flookup q l := by
  induction l with
  | nil =>
    simp only [List.nil_append, flookup]
    rw [if_neg (Ne.symm hq)]
  | cons r rest ih =>
    obtain ⟨rp, rc⟩ := r
    by_cases hr : rp = q <;> simp [flookup, hr, ih]

theorem flookup_snoc_self (l : List (FPath × String)) (p : FPath) (c : String)
    (h : flookup p l = none) : flookup p (l ++ [(p, c)]) = some c := by
  induction l with
  | nil => simp [flookup]
  | cons r rest ih =>
    obtain ⟨rp, rc⟩ := r
    by_cases hr : rp = p
    · simp [flookup, hr] at h
    · simp only [flookup, hr, if_false] at h
      simp only [List.cons_append, flookup, if_neg hr]
      exact ih h

theorem setFileAssoc_of_none (l : List (FPath × String)) (p : FPath) (c : String)
    (h : flookup p l = none) : setFileAssoc p c l = l ++ [(p, c)] := by
  induction l with
  | nil => rfl
  | cons r rest ih =>
    obtain ⟨rp, rc⟩ := r
    by_cases hr : rp = p
    · simp [flookup, hr] at h
    · simp only [flookup, hr, if_false] at h
      simp [setFileAssoc, hr, ih h]

theorem isDir_snoc_dir (ds : List FPath) (fl fl' : List (FPath × String))
    (d p : FPath) (h : FS.isDir ⟨ds, fl⟩ p = false) (hne : p ≠ d) :
    FS.isDir ⟨ds ++ [d], fl'⟩ p = false := by
  simp only [FS.isDir, Bool.or_eq_false_iff] at h ⊢
  refine ⟨h.1, ?_⟩
  have h2 : p ∉ ds := by simpa using h.2
  simp [List.mem_append, h2, hne]

theorem isDir_files_irrel (ds : List FPath) (fl fl' : List (FPath × String))
    (p : FPath) : FS.isDir ⟨ds, fl⟩ p = FS.isDir ⟨ds, fl'⟩ p := rfl

theorem mkdirList_all_dirs (fs : FS) (ps : List FPath)
    (h : ∀ q ∈ ps, fs.isDir q = true) : fs.mkdirList ps = .ok fs := by
  induction ps with
  | nil => rfl
  | cons p rest ih =>
    simp only [FS.mkdirList, FS.mkdirOne, h p (List.mem_cons_self p rest), if_true,
      except_bind_ok]
    exact ih (fun q hq => h q (List.mem_cons_of_mem p hq))

theorem makedirs_all_exist (fs : FS) (p : FPath)
    (h : ∀ q ∈ pathInits p, fs.isDir q = true) : fs.makedirs p = .ok fs :=
  mkdirList_all_dirs fs (pathInits p) h

theorem makedirs_snoc (fs : FS) (l : FPath) (a : String)
    (hinit : ∀ q ∈ pathInits l, fs.isDir q = true)
    (hnd : fs.isDir (l ++ [a]) = false) (hnf : fs.lookupFile (l ++ [a]) = none) :
    fs.makedirs (l ++ [a]) = .ok ⟨fs.dirs ++ [l ++ [a]], fs.files⟩ := by
  rw [FS.makedirs, pathInits_snoc]
  have h1 : fs.mkdirList (pathInits l) = .ok fs := mkdirList_all_dirs fs _ hinit
  have happ : ∀ (ps qs : List FPath) (f : FS),
      f.mkdirList (ps ++ qs) = f.mkdirList ps >>= (fun g => g.mkdirList qs) := by
    intro ps
    induction ps with
    | nil => intro qs f; rfl
    | cons p rest ih =>
      intro qs f
      simp only [List.cons_append, FS.mkdirList]
      cases f.mkdirOne p with
      | error e => rfl
      | ok g => simp only [except_bind_ok]; exact ih qs g
  rw [happ, h1, except_bind_ok]
  simp only [FS.mkdirList, FS.mkdirOne, hnd, Bool.false_eq_true, if_false,
    FS.isFile, hnf, Option.isSome_none, except_bind_ok]

theorem touch_fresh (fs : FS) (d : FPath) (a : String)
    (hd : fs.isDir (d ++ [a]) = false) (hf : fs.lookupFile (d ++ [a]) = none)
    (hpar : fs.isDir d = true) :
    fs.touch (d ++ [a]) = .ok ⟨fs.dirs, fs.files ++ [(d ++ [a], "")]⟩ := by
  have hdl : (d ++ [a]).dropLast = d := by simp
  simp only [FS.touch, hd, FS.isFile, hf, Option.isSome_none, Bool.or_self,
    Bool.false_eq_true, if_false, hdl, hpar, if_true]

theorem copy_fresh (fs : FS) (src d : FPath) (a : String) (c : String)
    (hsrc : fs.lookupFile src = some c)
    (hd : fs.isDir (d ++ [a]) = false) (hf : fs.lookupFile (d ++ [a]) = none)
    (hpar : fs.isDir d = true) :
    fs.copyFile src (d ++ [a]) = .ok ⟨fs.dirs, fs.files ++ [(d ++ [a], c)]⟩ := by
  simp only [FS.copyFile, hsrc, hd, Bool.false_eq_true, if_false]
  have hdl : (d ++ [a]).dropLast = d := by simp
  simp only [hdl, hpar, if_true]
  rw [show setFileAssoc (d ++ [a]) c fs.files = fs.files ++ [(d ++ [a], c)] from
    setFileAssoc_of_none _ _ _ hf]

theorem saneEntry_cases (e : JVal) (h : saneEntry e = true) :
    ∃ ff ns, e = .jobj ff ∧ alookup "name" ff = some (.jstr ns) ∧
      saneComp ns = true ∧ entryName e = ns ∧
      ((alookup "type" ff = some (.jstr "empty") ∧ entryType e = "empty") ∨
       (∃ src, alookup "type" ff = some (.jstr "template") ∧
         entryType e = "template" ∧
         alookup "source" ff = some (.jstr src) ∧ entrySource e = src)) := by
  cases e with
  | jobj ff =>
    simp only [saneEntry, Bool.and_eq_true] at h
    obtain ⟨hn, ht⟩ := h
    cases hname : alookup "name" ff with
    | none => rw [hname] at hn; exact absurd hn (by simp)
    | some nv =>
      cases nv with
      | jstr ns =>
        rw [hname] at hn
        have hn' : saneComp ns = true := hn
        refine ⟨ff, ns, rfl, hname, hn', by simp [entryName, hname], ?_⟩
        cases htype : alookup "type" ff with
        | none => rw [htype] at ht; exact absurd ht (by simp)
        | some tv =>
          cases tv with
          | jstr t =>
            rw [htype] at ht
            have ht' : (if t = "empty" then true
                else if t = "template" then
                  (match alookup "source" ff with
                   | some (.jstr _) => true
                   | _ => false)
                else false) = true := ht
            by_cases hte : t = "empty"
            · subst hte
              exact Or.inl ⟨rfl, by simp [entryType, htype]⟩
            · by_cases htt : t = "template"
              · subst htt
                rw [if_neg hte, if_pos rfl] at ht'
                cases hsrc : alookup "source" ff with
                | none => rw [hsrc] at ht'; exact absurd ht' (by simp)
                | some sv =>
                  cases sv with
                  | jstr src =>
                    exact Or.inr ⟨src, rfl, by simp [entryType, htype], rfl,
                      by simp [entrySource, hsrc]⟩
                  | jnull => rw [hsrc] at ht'; exact absurd ht' (by simp)
                  | jbool b => rw [hsrc] at ht'; exact absurd ht' (by simp)
                  | jnum n => rw [hsrc] at ht'; exact absurd ht' (by simp)
                  | jarr l => rw [hsrc] at ht'; exact absurd ht' (by simp)
                  | jobj l => rw [hsrc] at ht'; exact absurd ht' (by simp)
              · rw [if_neg hte, if_neg htt] at ht'
                exact absurd ht' (by simp)
          | jnull => rw [htype] at ht; exact absurd ht (by simp)
          | jbool b => rw [htype] at ht; exact absurd ht (by simp)
          | jnum n => rw [htype] at ht; exact absurd ht (by simp)
          | jarr l => rw [htype] at ht; exact absurd ht (by simp)
          | jobj l => rw [htype] at ht; exact absurd ht (by simp)
      | jnull => rw [hname] at hn; exact absurd hn (by simp)
      | jbool b => rw [hname] at hn; exact absurd hn (by simp)
      | jnum n => rw [hname] at hn; exact absurd hn (by simp)
      | jarr l => rw [hname] at hn; exact absurd hn (by simp)
      | jobj l => rw [hname] at hn; exact absurd hn (by simp)
  | jnull => simp [saneEntry] at h
  | jbool b => simp [saneEntry] at h
  | jnum n => simp [saneEntry] at h
  | jstr s => simp [saneEntry] at h
  | jarr l => simp [saneEntry] at h

theorem genFile_step (fs : FS) (subdirPath : FPath) (e : JVal)
    (hs : saneEntry e = true)
    (hdir : fs.isDir subdirPath = true)
    (ht : fs.isDir (entryTarget subdirPath e) = false)
    (hl : fs.lookupFile (entryTarget subdirPath e) = none)
    (hsrc : entryType e = "template" → fs.isDir (pathComps (entrySource e)) = false) :
    genFile fs subdirPath e = .ok
      (⟨fs.dirs, fs.files ++ ((entryOutput fs e).map
          (fun c => (entryTarget subdirPath e, c))).toList⟩,
       entryWarn fs e) := by
  obtain ⟨ff, ns, rfl, hname, hsane, hEn, hty⟩ := saneEntry_cases _ hs
  rcases hty with ⟨htype, hTe⟩ | ⟨src, htype, hTe, hsrck, hEs⟩
  · simp only [entryTarget, hEn] at ht hl
    have htch := touch_fresh fs subdirPath ns ht hl hdir
    simp [genFile, pyGetItem, hname, htype, pathComps_sane ns hsane, htch,
      entryOutput, hTe, entryWarn, entryTarget, hEn, except_bind_ok, except_pure]
  · simp only [entryTarget, hEn] at ht hl
    have hsd := hsrc hTe
    rw [hEs] at hsd
    cases hlk : fs.lookupFile (pathComps src) with
    | some c =>
      have hex : fs.pexists (pathComps src) = true := by
        simp [FS.pexists, FS.isFile, hlk]
      have hcopy := copy_fresh fs (pathComps src) subdirPath ns c hlk ht hl hdir
      simp [genFile, pyGetItem, hname, htype, hsrck, pathComps_sane ns hsane,
        hex, hcopy, entryOutput, hTe, hEs, hlk, entryWarn, entryTarget, hEn,
        except_bind_ok, except_pure]
    | none =>
      have hex : fs.pexists (pathComps src) = false := by
        simp [FS.pexists, FS.isFile, hlk, hsd]
      simp [genFile, pyGetItem, hname, htype, hsrck, pathComps_sane ns hsane,
        hex, entryOutput, hTe, hEs, hlk, entryWarn, entryTarget, hEn,
        except_bind_ok, except_pure]

theorem entryOutput_congr (fs1 fs2 : FS) (e : JVal)
    (h : fs1.lookupFile (pathComps (entrySource e)) =
         fs2.lookupFile (pathComps (entrySource e))) :
    entryOutput fs1 e = entryOutput fs2 e := by
  simp [entryOutput, h]

theorem entryWarn_congr (fs1 fs2 : FS) (e : JVal)
    (h : fs1.lookupFile (pathComps (entrySource e)) =
         fs2.lookupFile (pathComps (entrySource e))) :
    entryWarn fs1 e = entryWarn fs2 e := by
  simp [entryWarn, h]

theorem filterMap_congr' {a b : Type} (f g : a → Option b) (l : List a)
    (h : ∀ x ∈ l, f x = g x) : l.filterMap f = l.filterMap g := by
  induction l with
  | nil => rfl
  | cons x rest ih =>
    simp only [List.filterMap_cons, h x (List.mem_cons_self x rest),
      ih (fun y hy => h y (List.mem_cons_of_mem x hy))]

theorem concatMap'_congr {a b : Type} (f g : a → List b) (l : List a)
    (h : ∀ x ∈ l, f x = g x) : concatMap' f l = concatMap' g l := by
  induction l with
  | nil => rfl
  | cons x rest ih =>
    simp only [concatMap', h x (List.mem_cons_self x rest),
      ih (fun y hy => h y (List.mem_cons_of_mem x hy))]

theorem genFiles_spec (subdirPath : FPath) (entries : List JVal) (fs : FS)
    (H1 : fs.isDir subdirPath = true)
    (H2 : ∀ e ∈ entries, saneEntry e = true)
    (H3 : (entries.map (entryTarget subdirPath)).Nodup)
    (H4 : ∀ e ∈ entries, fs.isDir (entryTarget subdirPath e) = false ∧
        fs.lookupFile (entryTarget subdirPath e) = none)
    (H5 : ∀ e ∈ entries, entryType e = "template" →
        fs.isDir (pathComps (entrySource e)) = false ∧
        pathComps (entrySource e) ∉ entries.map (entryTarget subdirPath)) :
    genFiles subdirPath entries fs = .ok
      (⟨fs.dirs, fs.files ++ entries.filterMap (fun e =>
          (entryOutput fs e).map (fun c => (entryTarget subdirPath e, c)))⟩,
       concatMap' (entryWarn fs) entries) := by
  induction entries generalizing fs with
  | nil => simp [genFiles, concatMap']
  | cons e rest ih =>
    have he : e ∈ e :: rest := List.mem_cons_self e rest
    have hstep := genFile_step fs subdirPath e (H2 e he) H1 (H4 e he).1 (H4 e he).2
      (fun htp => (H5 e he htp).1)
    simp only [genFiles, hstep, except_bind_ok]
    simp only [List.map_cons, List.nodup_cons] at H3
    cases ho : entryOutput fs e with
    | none =>
      rw [ho] at hstep
      simp only [Option.map_none', Option.toList_none, List.append_nil]
      rw [ih ⟨fs.dirs, fs.files⟩ H1
        (fun x hx => H2 x (List.mem_cons_of_mem e hx))
        H3.2
        (fun x hx => H4 x (List.mem_cons_of_mem e hx))
        (fun x hx htp => ⟨(H5 x (List.mem_cons_of_mem e hx) htp).1,
          fun hmem => (H5 x (List.mem_cons_of_mem e hx) htp).2
            (List.mem_cons_of_mem _ hmem)⟩)]
      simp only [except_bind_ok, except_pure, List.filterMap_cons, ho, concatMap']
      rfl
    | some c =>
      rw [ho] at hstep
      simp only [Option.map_some', Option.toList_some]
      have hlookup : ∀ q : FPath, q ≠ entryTarget subdirPath e →
          FS.lookupFile ⟨fs.dirs, fs.files ++ [(entryTarget subdirPath e, c)]⟩ q =
          fs.lookupFile q := by
        intro q hq
        exact flookup_snoc_ne fs.files (entryTarget subdirPath e) q c hq
      rw [ih ⟨fs.dirs, fs.files ++ [(entryTarget subdirPath e, c)]⟩ H1
        (fun x hx => H2 x (List.mem_cons_of_mem e hx))
        H3.2
        (fun x hx => ⟨(H4 x (List.mem_cons_of_mem e hx)).1, by
          rw [hlookup _ (fun hEq => H3.1 (hEq ▸
            List.mem_map_of_mem (entryTarget subdirPath) hx))]
          exact (H4 x (List.mem_cons_of_mem e hx)).2⟩)
        (fun x hx htp => ⟨(H5 x (List.mem_cons_of_mem e hx) htp).1,
          fun hmem => (H5 x (List.mem_cons_of_mem e hx) htp).2
            (List.mem_cons_of_mem _ hmem)⟩)]
      have hOut : ∀ x ∈ rest,
          (entryOutput ⟨fs.dirs, fs.files ++ [(entryTarget subdirPath e, c)]⟩ x).map
            (fun c2 => (entryTarget subdirPath x, c2)) =
          (entryOutput fs x).map (fun c2 => (entryTarget subdirPath x, c2)) := by
        intro x hx
        congr 1
        by_cases htp : entryType x = "template"
        · exact entryOutput_congr _ fs x (hlookup _ (fun hEq =>
            (H5 x (List.mem_cons_of_mem e hx) htp).2
              (hEq ▸ List.mem_cons_self _ _)))
        · simp [entryOutput, htp]
      have hWarn : ∀ x ∈ rest,
          entryWarn ⟨fs.dirs, fs.files ++ [(entryTarget subdirPath e, c)]⟩ x =
          entryWarn fs x := by
        intro x hx
        by_cases htp : entryType x = "template"
        · exact entryWarn_congr _ fs x (hlookup _ (fun hEq =>
            (H5 x (List.mem_cons_of_mem e hx) htp).2
              (hEq ▸ List.mem_cons_self _ _)))
        · simp [entryWarn, htp]
      rw [filterMap_congr' _ _ rest hOut, concatMap'_congr _ _ rest hWarn]
      simp only [except_bind_ok, except_pure, List.filterMap_cons, ho,
        Option.map_some', concatMap', List.append_assoc, List.singleton_append]

theorem hasFilesList_cases (c : JVal) (h : hasFilesList c = true) :
    ∃ cf es, c = .jobj cf ∧ alookup "files" cf = some (.jarr es) ∧ filesOf c = es := by
  cases c with
  | jobj cf =>
    cases hf : alookup "files" cf with
    | none => simp [hasFilesList, hf] at h
    | some fv =>
      cases fv with
      | jarr es => exact ⟨cf, es, rfl, hf, by simp [filesOf, hf]⟩
      | jnull => simp [hasFilesList, hf] at h
      | jbool b => simp [hasFilesList, hf] at h
      | jnum n => simp [hasFilesList, hf] at h
      | jstr s => simp [hasFilesList, hf] at h
      | jobj l => simp [hasFilesList, hf] at h
  | jnull => simp [hasFilesList] at h
  | jbool b => simp [hasFilesList] at h
  | jnum n => simp [hasFilesList] at h
  | jstr s => simp [hasFilesList] at h
  | jarr l => simp [hasFilesList] at h

theorem isDir_append_true (ds D : List FPath) (fl fl' : List (FPath × String))
    (p : FPath) (h : FS.isDir ⟨ds, fl⟩ p = true) :
    FS.isDir ⟨ds ++ D, fl'⟩ p = true := by
  simp only [FS.isDir, Bool.or_eq_true] at h ⊢
  rcases h with h | h
  · exact Or.inl h
  · refine Or.inr ?_
    have h2 : p ∈ ds := by simpa using h
    simpa using List.mem_append_left D h2

theorem isDir_append_false (ds D : List FPath) (fl fl' : List (FPath × String))
    (p : FPath) (h : FS.isDir ⟨ds, fl⟩ p = false) (hp : p ∉ D) :
    FS.isDir ⟨ds ++ D, fl'⟩ p = false := by
  simp only [FS.isDir, Bool.or_eq_false_iff] at h ⊢
  refine ⟨h.1, ?_⟩
  have h2 : p ∉ ds := by simpa using h.2
  simp [List.mem_append, h2, hp]

theorem isDir_snoc_self (ds : List FPath) (fl : List (FPath × String)) (d : FPath) :
    FS.isDir ⟨ds ++ [d], fl⟩ d = true := by
  simp [FS.isDir]

theorem flookup_eq_none_of_not_fst (L : List (FPath × String)) (q : FPath)
    (h : q ∉ L.map Prod.fst) : flookup q L = none := by
  induction L with
  | nil => rfl
  | cons r rest ih =>
    simp only [List.map_cons, List.mem_cons, not_or] at h
    obtain ⟨rp, rc⟩ := r
    rw [show flookup q ((rp, rc) :: rest) =
        (if rp = q then some rc else flookup q rest) from rfl,
      if_neg (fun hEq => h.1 hEq.symm)]
    exact ih h.2

theorem flookup_append_not_fst (l L : List (FPath × String)) (q : FPath)
    (h : q ∉ L.map Prod.fst) : flookup q (l ++ L) = flookup q l := by
  induction l with
  | nil => simpa using flookup_eq_none_of_not_fst L q h
  | cons r rest ih =>
    obtain ⟨rp, rc⟩ := r
    by_cases hr : rp = q <;> simp [flookup, hr, ih]

theorem output_keys_sub (fs : FS) (sub : FPath) (es : List JVal) (q : FPath)
    (h : q ∈ (es.filterMap (fun e => (entryOutput fs e).map
      (fun c => (entryTarget sub e, c)))).map Prod.fst) :
    q ∈ es.map (entryTarget sub) := by
  simp only [List.mem_map, List.mem_filterMap] at h
  obtain ⟨r, ⟨e, he, hr⟩, hq⟩ := h
  cases ho : entryOutput fs e with
  | none => rw [ho] at hr; simp at hr
  | some c =>
    rw [ho] at hr
    simp only [Option.map_some', Option.some_inj] at hr
    subst hr
    simp only at hq
    subst hq
    exact List.mem_map_of_mem _ he

theorem declDirs_cons_nil (mainPath : FPath) (p : String × JVal)
    (rest : List (String × JVal)) (h : pathComps p.1 = []) :
    declDirs mainPath (p :: rest) = declDirs mainPath rest := by
  simp [declDirs, List.filterMap_cons, h]

theorem declDirs_cons_comp (mainPath : FPath) (p : String × JVal)
    (rest : List (String × JVal)) (h : pathComps p.1 ≠ []) :
    declDirs mainPath (p :: rest) =
      subdirPathOf mainPath p.1 :: declDirs mainPath rest := by
  simp [declDirs, List.filterMap_cons, h]

theorem declTargets_cons (mainPath : FPath) (p : String × JVal)
    (rest : List (String × JVal)) :
    declTargets mainPath (p :: rest) =
      (filesOf p.2).map (entryTarget (subdirPathOf mainPath p.1)) ++
        declTargets mainPath rest := rfl

theorem declFiles_cons (fs : FS) (mainPath : FPath) (p : String × JVal)
    (rest : List (String × JVal)) :
    declFiles fs mainPath (p :: rest) =
      (filesOf p.2).filterMap (fun e => (entryOutput fs e).map
        (fun c => (entryTarget (subdirPathOf mainPath p.1) e, c))) ++
        declFiles fs mainPath rest := rfl

theorem declWarns_cons (fs : FS) (p : String × JVal)
    (rest : List (String × JVal)) :
    declWarns fs (p :: rest) =
      concatMap' (entryWarn fs) (filesOf p.2) ++ declWarns fs rest := rfl

theorem declDirs_ne_mainPath (mainPath : FPath) (subs : List (String × JVal)) :
    ∀ d ∈ declDirs mainPath subs, d ≠ mainPath := by
  intro d hd hEq
  simp only [declDirs, List.mem_filterMap] at hd
  obtain ⟨p, hp, hif⟩ := hd
  by_cases hk : pathComps p.1 = []
  · rw [if_pos hk] at hif
    exact Option.noConfusion hif
  · rw [if_neg hk] at hif
    injection hif with hif
    rw [← hif, subdirPathOf] at hEq
    have hlen := congrArg List.length hEq
    simp only [List.length_append] at hlen
    exact hk (List.length_eq_zero.mp (by omega))

theorem genSubdirs_spec (mainPath : FPath) (subs : List (String × JVal)) (fs : FS)
    (Hm : mainPath ≠ [])
    (H0 : ∀ q ∈ pathInits mainPath, fs.isDir q = true)
    (Hsane : ∀ p ∈ subs, saneKey p.1 = true ∧ hasFilesList p.2 = true ∧
        ∀ e ∈ filesOf p.2, saneEntry e = true)
    (HdN : (declDirs mainPath subs).Nodup)
    (HdF : ∀ d ∈ declDirs mainPath subs, fs.isDir d = false ∧ fs.lookupFile d = none)
    (HtN : (declTargets mainPath subs).Nodup)
    (HtF : ∀ t ∈ declTargets mainPath subs, fs.isDir t = false ∧
        fs.lookupFile t = none ∧ t ∉ declDirs mainPath subs)
    (Hsrc : ∀ p ∈ subs, ∀ e ∈ filesOf p.2, entryType e = "template" →
        fs.isDir (pathComps (entrySource e)) = false ∧
        pathComps (entrySource e) ∉ declDirs mainPath subs ∧
        pathComps (entrySource e) ∉ declTargets mainPath subs) :
    genSubdirs mainPath subs fs = .ok
      (⟨fs.dirs ++ declDirs mainPath subs, fs.files ++ declFiles fs mainPath subs⟩,
       declWarns fs subs) := by
  induction subs generalizing fs with
  | nil => simp [genSubdirs, declDirs, declFiles, declWarns, concatMap']
  | cons p rest ih =>
    obtain ⟨k, c⟩ := p
    have hp0 : (k, c) ∈ (k, c) :: rest := List.mem_cons_self _ _
    obtain ⟨hkey, hfl, hents⟩ := Hsane _ hp0
    obtain ⟨cf, es, rfl, hcf, hfo⟩ := hasFilesList_cases c hfl
    rw [hfo] at hents
    have hMdir : fs.isDir mainPath = true :=
      H0 mainPath (mem_pathInits_self mainPath Hm)
    have hkey' : k = "" ∨ saneComp k = true := by simpa [saneKey] using hkey
    have hheadT : declTargets mainPath ((k, JVal.jobj cf) :: rest) =
        es.map (entryTarget (mainPath ++ pathComps k)) ++ declTargets mainPath rest := by
      rw [declTargets_cons]
      simp [subdirPathOf, hfo]
    have hTnd := hheadT ▸ HtN
    have hmemT : ∀ x ∈ es.map (entryTarget (mainPath ++ pathComps k)),
        x ∈ declTargets mainPath ((k, JVal.jobj cf) :: rest) := by
      intro x hx; rw [hheadT]; exact List.mem_append_left _ hx
    have hmemTrest : ∀ x ∈ declTargets mainPath rest,
        x ∈ declTargets mainPath ((k, JVal.jobj cf) :: rest) := by
      intro x hx; rw [hheadT]; exact List.mem_append_right _ hx
    have hmemDrest : ∀ d ∈ declDirs mainPath rest,
        d ∈ declDirs mainPath ((k, JVal.jobj cf) :: rest) := by
      intro d hd
      by_cases hk0 : pathComps k = []
      · rw [declDirs_cons_nil mainPath _ rest hk0]; exact hd
      · rw [declDirs_cons_comp mainPath _ rest hk0]
        exact List.mem_cons_of_mem _ hd
    have hDndTail : (declDirs mainPath rest).Nodup := by
      by_cases hk0 : pathComps k = []
      · rw [declDirs_cons_nil mainPath _ rest hk0] at HdN; exact HdN
      · rw [declDirs_cons_comp mainPath _ rest hk0] at HdN
        exact (List.nodup_cons.mp HdN).2
    have hspRest : pathComps k ≠ [] →
        mainPath ++ pathComps k ∉ declDirs mainPath rest := by
      intro hk0
      rw [declDirs_cons_comp mainPath _ rest hk0] at HdN
      exact (List.nodup_cons.mp HdN).1
    have hspFull : pathComps k ≠ [] →
        mainPath ++ pathComps k ∈ declDirs mainPath ((k, JVal.jobj cf) :: rest) := by
      intro hk0
      rw [declDirs_cons_comp mainPath _ rest hk0]
      exact List.mem_cons_self _ _
    have key : ∃ fs1 : FS,
        fs.makedirs (mainPath ++ pathComps k) = .ok fs1 ∧
        fs1.files = fs.files ∧
        fs1.isDir (mainPath ++ pathComps k) = true ∧
        (∀ q, fs.isDir q = true → fs1.isDir q = true) ∧
        (∀ q, fs.isDir q = false →
          (pathComps k ≠ [] → q ≠ mainPath ++ pathComps k) → fs1.isDir q = false) ∧
        fs1.dirs ++ declDirs mainPath rest =
          fs.dirs ++ declDirs mainPath ((k, JVal.jobj cf) :: rest) := by
      rcases hkey' with rfl | hsk
      · refine ⟨fs, ?_, rfl, ?_, fun q h => h, fun q h _ => h, ?_⟩
        · rw [show pathComps "" = [] from rfl, List.append_nil]
          exact makedirs_all_exist fs mainPath H0
        · rw [show pathComps "" = [] from rfl, List.append_nil]
          exact hMdir
        · rw [declDirs_cons_nil mainPath _ rest (show pathComps "" = [] from rfl)]
      · have hcomp := pathComps_sane k hsk
        have hk0 : pathComps k ≠ [] := by rw [hcomp]; simp
        have hfr := HdF _ (hspFull hk0)
        refine ⟨⟨fs.dirs ++ [mainPath ++ pathComps k], fs.files⟩, ?_, rfl, ?_, ?_, ?_, ?_⟩
        · rw [hcomp]
          exact makedirs_snoc fs mainPath k H0 (by rw [← hcomp]; exact hfr.1)
            (by rw [← hcomp]; exact hfr.2)
        · exact isDir_snoc_self _ _ _
        · intro q h; exact isDir_append_true _ _ _ _ q h
        · intro q h hcond
          exact isDir_append_false _ _ _ _ q h
            (by simpa using hcond hk0)
        · rw [declDirs_cons_comp mainPath _ rest hk0, subdirPathOf]
          simp
    obtain ⟨fs1, F1, F2, F3, F4, F5, F6⟩ := key
    have hLK1 : ∀ q, fs1.lookupFile q = fs.lookupFile q := by
      intro q; rw [FS.lookupFile, FS.lookupFile, F2]
    have hGF := genFiles_spec (mainPath ++ pathComps k) es fs1 F3 hents
      (by exact (List.nodup_append.mp hTnd).1)
      (fun e he => by
        have hx := hmemT _ (List.mem_map_of_mem _ he)
        refine ⟨F5 _ (HtF _ hx).1 (fun hk0 hEq =>
          (HtF _ hx).2.2 (by rw [hEq]; exact hspFull hk0)), ?_⟩
        rw [hLK1]
        exact (HtF _ hx).2.1)
      (fun e he htp => by
        have hs := Hsrc _ hp0 e (by rw [hfo]; exact he) htp
        refine ⟨F5 _ hs.1 (fun hk0 hEq =>
          hs.2.1 (by rw [hEq]; exact hspFull hk0)), ?_⟩
        intro hmem
        exact hs.2.2 (hmemT _ hmem))
    rw [filterMap_congr' _
        (fun e => (entryOutput fs e).map
          (fun c2 => (entryTarget (mainPath ++ pathComps k) e, c2))) es
        (fun x hx => by rw [entryOutput_congr fs1 fs x (hLK1 _)]),
      concatMap'_congr _ (entryWarn fs) es
        (fun x hx => entryWarn_congr fs1 fs x (hLK1 _)), F2] at hGF
    simp only [genSubdirs, F1, except_bind_ok, pyGetItem, hcf, pyIter, hGF]
    have hLK2 : ∀ q, q ∉ es.map (entryTarget (mainPath ++ pathComps k)) →
        FS.lookupFile ⟨fs1.dirs, fs.files ++ es.filterMap (fun e =>
          (entryOutput fs e).map (fun c2 =>
            (entryTarget (mainPath ++ pathComps k) e, c2)))⟩ q =
        fs.lookupFile q := by
      intro q hq
      rw [FS.lookupFile, FS.lookupFile]
      exact flookup_append_not_fst _ _ _
        (fun hmem => hq (output_keys_sub fs _ es q hmem))
    have hnotHeadOfDir : ∀ d ∈ declDirs mainPath rest,
        d ∉ es.map (entryTarget (mainPath ++ pathComps k)) := by
      intro d hd hmem
      exact (HtF _ (hmemT _ hmem)).2.2 (hmemDrest _ hd)
    have hnotHeadOfTgt : ∀ t ∈ declTargets mainPath rest,
        t ∉ es.map (entryTarget (mainPath ++ pathComps k)) := by
      intro t ht hmem
      exact (List.nodup_append.mp hTnd).2.2 hmem ht
    have hnotHeadOfSrc : ∀ p2 ∈ rest, ∀ e ∈ filesOf p2.2, entryType e = "template" →
        pathComps (entrySource e) ∉ es.map (entryTarget (mainPath ++ pathComps k)) := by
      intro p2 hp2 e he htp hmem
      exact (Hsrc p2 (List.mem_cons_of_mem _ hp2) e he htp).2.2 (hmemT _ hmem)
    rw [ih ⟨fs1.dirs, fs.files ++ es.filterMap (fun e =>
        (entryOutput fs e).map (fun c2 =>
          (entryTarget (mainPath ++ pathComps k) e, c2)))⟩
      (fun q hq => F4 q (H0 q hq))
      (fun p2 hp2 => Hsane p2 (List.mem_cons_of_mem _ hp2))
      hDndTail
      (fun d hd => by
        have hfull := HdF d (hmemDrest d hd)
        refine ⟨F5 d hfull.1 (fun hk0 hEq =>
          hspRest hk0 (by rw [← hEq]; exact hd)), ?_⟩
        rw [hLK2 d (hnotHeadOfDir d hd)]
        exact hfull.2)
      ((List.nodup_append.mp hTnd).2.1)
      (fun t ht => by
        have hfull := HtF t (hmemTrest t ht)
        refine ⟨F5 t hfull.1 (fun hk0 hEq =>
          hfull.2.2 (by rw [hEq]; exact hspFull hk0)), ?_, ?_⟩
        · rw [hLK2 t (hnotHeadOfTgt t ht)]
          exact hfull.2.1
        · intro hmem
          exact hfull.2.2 (hmemDrest _ hmem))
      (fun p2 hp2 e he htp => by
        have hs := Hsrc p2 (List.mem_cons_of_mem _ hp2) e he htp
        refine ⟨F5 _ hs.1 (fun hk0 hEq =>
          hs.2.1 (by rw [hEq]; exact hspFull hk0)), ?_, ?_⟩
        · intro hmem
          exact hs.2.1 (hmemDrest _ hmem)
        · intro hmem
          exact hs.2.2 (hmemTrest _ hmem))]
    have hDFstable : declFiles ⟨fs1.dirs, fs.files ++ es.filterMap (fun e =>
        (entryOutput fs e).map (fun c2 =>
          (entryTarget (mainPath ++ pathComps k) e, c2)))⟩ mainPath rest =
        declFiles fs mainPath rest := by
      unfold declFiles
      refine concatMap'_congr _ _ rest (fun p2 hp2 => ?_)
      refine filterMap_congr' _ _ (filesOf p2.2) (fun e he => ?_)
      congr 1
      by_cases htp : entryType e = "template"
      · exact entryOutput_congr _ fs e (hLK2 _ (hnotHeadOfSrc p2 hp2 e he htp))
      · simp [entryOutput, htp]
    have hWstable : declWarns ⟨fs1.dirs, fs.files ++ es.filterMap (fun e =>
        (entryOutput fs e).map (fun c2 =>
          (entryTarget (mainPath ++ pathComps k) e, c2)))⟩ rest =
        declWarns fs rest := by
      unfold declWarns
      refine concatMap'_congr _ _ rest (fun p2 hp2 => ?_)
      refine concatMap'_congr _ _ (filesOf p2.2) (fun e he => ?_)
      by_cases htp : entryType e = "template"
      · exact entryWarn_congr _ fs e (hLK2 _ (hnotHeadOfSrc p2 hp2 e he htp))
      · simp [entryWarn, htp]
    rw [hDFstable, hWstable]
    simp only [except_bind_ok, except_pure]
    rw [declFiles_cons, declWarns_cons]
    simp only [hfo, subdirPathOf, F6, List.append_assoc]

/-! ## Generation machinery, continued: the default (CLI) loop and the
top-level `generate` equations behind claims C1 and C6 -/

theorem declTargets_ne_mainPath (mainPath : FPath) (subs : List (String × JVal)) :
    ∀ t ∈ declTargets mainPath subs, t ≠ mainPath := by
  intro t ht hEq
  rw [declTargets] at ht
  obtain ⟨p, hp, hmem⟩ := (mem_concatMap' _ _ _).mp ht
  obtain ⟨e, he, hEq2⟩ := List.mem_map.mp hmem
  rw [← hEq2, entryTarget, subdirPathOf] at hEq
  have hlen := congrArg List.length hEq
  simp only [List.append_assoc, List.length_append, List.length_singleton] at hlen
  omega

theorem genFileDefault_step (fs : FS) (subdirPath : FPath) (e : JVal)
    (hs : saneEntry e = true)
    (hdir : fs.isDir subdirPath = true)
    (ht : fs.isDir (entryTarget subdirPath e) = false)
    (hl : fs.lookupFile (entryTarget subdirPath e) = none) :
    genFileDefault fs subdirPath e = .ok
      ⟨fs.dirs, fs.files ++ (if entryType e = "empty" then
          [(entryTarget subdirPath e, "")] else [])⟩ := by
  obtain ⟨ff, ns, rfl, hname, hsane, hEn, hty⟩ := saneEntry_cases _ hs
  rcases hty with ⟨htype, hTe⟩ | ⟨src, htype, hTe, hsrck, hEs⟩
  · simp only [entryTarget, hEn] at ht hl
    have htch := touch_fresh fs subdirPath ns ht hl hdir
    simp [genFileDefault, pyGetItem, hname, htype, pathComps_sane ns hsane, htch,
      hTe, entryTarget, hEn, except_bind_ok, except_pure]
  · simp only [entryTarget, hEn] at ht hl
    simp [genFileDefault, pyGetItem, hname, htype, pathComps_sane ns hsane,
      hTe, except_bind_ok, except_pure]

theorem genFilesDefault_spec (subdirPath : FPath) (entries : List JVal) (fs : FS)
    (H1 : fs.isDir subdirPath = true)
    (H2 : ∀ e ∈ entries, saneEntry e = true)
    (H3 : (entries.map (entryTarget subdirPath)).Nodup)
    (H4 : ∀ e ∈ entries, fs.isDir (entryTarget subdirPath e) = false ∧
        fs.lookupFile (entryTarget subdirPath e) = none) :
    genFilesDefault subdirPath entries fs = .ok
      ⟨fs.dirs, fs.files ++ entries.filterMap (fun e =>
          if entryType e = "empty" then some (entryTarget subdirPath e, "")
          else none)⟩ := by
  induction entries generalizing fs with
  | nil => simp [genFilesDefault]
  | cons e rest ih =>
    have he : e ∈ e :: rest := List.mem_cons_self e rest
    have hstep := genFileDefault_step fs subdirPath e (H2 e he) H1
      (H4 e he).1 (H4 e he).2
    simp only [genFilesDefault, hstep, except_bind_ok]
    simp only [List.map_cons, List.nodup_cons] at H3
    by_cases hte : entryType e = "empty"
    · rw [if_pos hte]
      rw [ih ⟨fs.dirs, fs.files ++ [(entryTarget subdirPath e, "")]⟩ H1
        (fun x hx => H2 x (List.mem_cons_of_mem e hx))
        H3.2
        (fun x hx => ⟨(H4 x (List.mem_cons_of_mem e hx)).1, by
          rw [show FS.lookupFile ⟨fs.dirs, fs.files ++ [(entryTarget subdirPath e, "")]⟩
              (entryTarget subdirPath x) =
              fs.lookupFile (entryTarget subdirPath x) from
            flookup_snoc_ne fs.files _ _ _ (fun hEq => H3.1 (hEq ▸
              List.mem_map_of_mem (entryTarget subdirPath) hx))]
          exact (H4 x (List.mem_cons_of_mem e hx)).2⟩)]
      simp [List.filterMap_cons, hte, List.append_assoc]
    · rw [if_neg hte, List.append_nil]
      rw [ih ⟨fs.dirs, fs.files⟩ H1
        (fun x hx => H2 x (List.mem_cons_of_mem e hx))
        H3.2
        (fun x hx => H4 x (List.mem_cons_of_mem e hx))]
      simp [List.filterMap_cons, hte]

theorem emptyKeys_sub (sub : FPath) (es : List JVal) (q : FPath)
    (h : q ∈ (es.filterMap (fun e => if entryType e = "empty" then
        some (entryTarget sub e, "") else none)).map Prod.fst) :
    q ∈ es.map (entryTarget sub) := by
  simp only [List.mem_map, List.mem_filterMap] at h
  obtain ⟨r, ⟨e, he, hr⟩, hq⟩ := h
  by_cases hte : entryType e = "empty"
  · rw [if_pos hte] at hr
    injection hr with hr
    subst hr
    subst hq
    exact List.mem_map_of_mem _ he
  · rw [if_neg hte] at hr
    exact Option.noConfusion hr

theorem declEmptyFiles_cons (mainPath : FPath) (p : String × JVal)
    (rest : List (String × JVal)) :
    declEmptyFiles mainPath (p :: rest) =
      (filesOf p.2).filterMap (fun e => if entryType e = "empty" then
        some (entryTarget (subdirPathOf mainPath p.1) e, "") else none) ++
        declEmptyFiles mainPath rest := rfl

theorem genSubdirsDefault_spec (mainPath : FPath) (subs : List (String × JVal)) (fs : FS)
    (Hm : mainPath ≠ [])
    (H0 : ∀ q ∈ pathInits mainPath, fs.isDir q = true)
    (Hsane : ∀ p ∈ subs, saneKey p.1 = true ∧ hasFilesList p.2 = true ∧
        ∀ e ∈ filesOf p.2, saneEntry e = true)
    (HdN : (declDirs mainPath subs).Nodup)
    (HdF : ∀ d ∈ declDirs mainPath subs, fs.isDir d = false ∧ fs.lookupFile d = none)
    (HtN : (declTargets mainPath subs).Nodup)
    (HtF : ∀ t ∈ declTargets mainPath subs, fs.isDir t = false ∧
        fs.lookupFile t = none ∧ t ∉ declDirs mainPath subs) :
    genSubdirsDefault mainPath subs fs = .ok
      ⟨fs.dirs ++ declDirs mainPath subs, fs.files ++ declEmptyFiles mainPath subs⟩ := by
  induction subs generalizing fs with
  | nil => simp [genSubdirsDefault, declDirs, declEmptyFiles, concatMap']
  | cons p rest ih =>
    obtain ⟨k, c⟩ := p
    have hp0 : (k, c) ∈ (k, c) :: rest := List.mem_cons_self _ _
    obtain ⟨hkey, hfl, hents⟩ := Hsane _ hp0
    obtain ⟨cf, es, rfl, hcf, hfo⟩ := hasFilesList_cases c hfl
    rw [hfo] at hents
    have hMdir : fs.isDir mainPath = true :=
      H0 mainPath (mem_pathInits_self mainPath Hm)
    have hkey' : k = "" ∨ saneComp k = true := by simpa [saneKey] using hkey
    have hheadT : declTargets mainPath ((k, JVal.jobj cf) :: rest) =
        es.map (entryTarget (mainPath ++ pathComps k)) ++ declTargets mainPath rest := by
      rw [declTargets_cons]
      simp [subdirPathOf, hfo]
    have hTnd := hheadT ▸ HtN
    have hmemT : ∀ x ∈ es.map (entryTarget (mainPath ++ pathComps k)),
        x ∈ declTargets mainPath ((k, JVal.jobj cf) :: rest) := by
      intro x hx; rw [hheadT]; exact List.mem_append_left _ hx
    have hmemTrest : ∀ x ∈ declTargets mainPath rest,
        x ∈ declTargets mainPath ((k, JVal.jobj cf) :: rest) := by
      intro x hx; rw [hheadT]; exact List.mem_append_right _ hx
    have hmemDrest : ∀ d ∈ declDirs mainPath rest,
        d ∈ declDirs mainPath ((k, JVal.jobj cf) :: rest) := by
      intro d hd
      by_cases hk0 : pathComps k = []
      · rw [declDirs_cons_nil mainPath _ rest hk0]; exact hd
      · rw [declDirs_cons_comp mainPath _ rest hk0]
        exact List.mem_cons_of_mem _ hd
    have hDndTail : (declDirs mainPath rest).Nodup := by
      by_cases hk0 : pathComps k = []
      · rw [declDirs_cons_nil mainPath _ rest hk0] at HdN; exact HdN
      · rw [declDirs_cons_comp mainPath _ rest hk0] at HdN
        exact (List.nodup_cons.mp HdN).2
    have hspRest : pathComps k ≠ [] →
        mainPath ++ pathComps k ∉ declDirs mainPath rest := by
      intro hk0
      rw [declDirs_cons_comp mainPath _ rest hk0] at HdN
      exact (List.nodup_cons.mp HdN).1
    have hspFull : pathComps k ≠ [] →
        mainPath ++ pathComps k ∈ declDirs mainPath ((k, JVal.jobj cf) :: rest) := by
      intro hk0
      rw [declDirs_cons_comp mainPath _ rest hk0]
      exact List.mem_cons_self _ _
    have key : ∃ fs1 : FS,
        fs.makedirs (mainPath ++ pathComps k) = .ok fs1 ∧
        fs1.files = fs.files ∧
        fs1.isDir (mainPath ++ pathComps k) = true ∧
        (∀ q, fs.isDir q = true → fs1.isDir q = true) ∧
        (∀ q, fs.isDir q = false →
          (pathComps k ≠ [] → q ≠ mainPath ++ pathComps k) → fs1.isDir q = false) ∧
        fs1.dirs ++ declDirs mainPath rest =
          fs.dirs ++ declDirs mainPath ((k, JVal.jobj cf) :: rest) := by
      rcases hkey' with rfl | hsk
      · refine ⟨fs, ?_, rfl, ?_, fun q h => h, fun q h _ => h, ?_⟩
        · rw [show pathComps "" = [] from rfl, List.append_nil]
          exact makedirs_all_exist fs mainPath H0
        · rw [show pathComps "" = [] from rfl, List.append_nil]
          exact hMdir
        · rw [declDirs_cons_nil mainPath _ rest (show pathComps "" = [] from rfl)]
      · have hcomp := pathComps_sane k hsk
        have hk0 : pathComps k ≠ [] := by rw [hcomp]; simp
        have hfr := HdF _ (hspFull hk0)
        refine ⟨⟨fs.dirs ++ [mainPath ++ pathComps k], fs.files⟩, ?_, rfl, ?_, ?_, ?_, ?_⟩
        · rw [hcomp]
          exact makedirs_snoc fs mainPath k H0 (by rw [← hcomp]; exact hfr.1)
            (by rw [← hcomp]; exact hfr.2)
        · exact isDir_snoc_self _ _ _
        · intro q h; exact isDir_append_true _ _ _ _ q h
        · intro q h hcond
          exact isDir_append_false _ _ _ _ q h
            (by simpa using hcond hk0)
        · rw [declDirs_cons_comp mainPath _ rest hk0, subdirPathOf]
          simp
    obtain ⟨fs1, F1, F2, F3, F4, F5, F6⟩ := key
    have hLK1 : ∀ q, fs1.lookupFile q = fs.lookupFile q := by
      intro q; rw [FS.lookupFile, FS.lookupFile, F2]
    have hGF := genFilesDefault_spec (mainPath ++ pathComps k) es fs1 F3 hents
      (by exact (List.nodup_append.mp hTnd).1)
      (fun e he => by
        have hx := hmemT _ (List.mem_map_of_mem _ he)
        refine ⟨F5 _ (HtF _ hx).1 (fun hk0 hEq =>
          (HtF _ hx).2.2 (by rw [hEq]; exact hspFull hk0)), ?_⟩
        rw [hLK1]
        exact (HtF _ hx).2.1)
    rw [F2] at hGF
    simp only [genSubdirsDefault, F1, except_bind_ok, pyGetItem, hcf, pyIter, hGF]
    have hLK2 : ∀ q, q ∉ es.map (entryTarget (mainPath ++ pathComps k)) →
        FS.lookupFile ⟨fs1.dirs, fs.files ++ es.filterMap (fun e =>
          if entryType e = "empty" then
            some (entryTarget (mainPath ++ pathComps k) e, "") else none)⟩ q =
        fs.lookupFile q := by
      intro q hq
      rw [FS.lookupFile, FS.lookupFile]
      exact flookup_append_not_fst _ _ _
        (fun hmem => hq (emptyKeys_sub _ es q hmem))
    have hnotHeadOfDir : ∀ d ∈ declDirs mainPath rest,
        d ∉ es.map (entryTarget (mainPath ++ pathComps k)) := by
      intro d hd hmem
      exact (HtF _ (hmemT _ hmem)).2.2 (hmemDrest _ hd)
    have hnotHeadOfTgt : ∀ t ∈ declTargets mainPath rest,
        t ∉ es.map (entryTarget (mainPath ++ pathComps k)) := by
      intro t ht hmem
      exact (List.nodup_append.mp hTnd).2.2 hmem ht
    rw [ih ⟨fs1.dirs, fs.files ++ es.filterMap (fun e =>
        if entryType e = "empty" then
          some (entryTarget (mainPath ++ pathComps k) e, "") else none)⟩
      (fun q hq => F4 q (H0 q hq))
      (fun p2 hp2 => Hsane p2 (List.mem_cons_of_mem _ hp2))
      hDndTail
      (fun d hd => by
        have hfull := HdF d (hmemDrest d hd)
        refine ⟨F5 d hfull.1 (fun hk0 hEq =>
          hspRest hk0 (by rw [← hEq]; exact hd)), ?_⟩
        rw [hLK2 d (hnotHeadOfDir d hd)]
        exact hfull.2)
      ((List.nodup_append.mp hTnd).2.1)
      (fun t ht => by
        have hfull := HtF t (hmemTrest t ht)
        refine ⟨F5 t hfull.1 (fun hk0 hEq =>
          hfull.2.2 (by rw [hEq]; exact hspFull hk0)), ?_, ?_⟩
        · rw [hLK2 t (hnotHeadOfTgt t ht)]
          exact hfull.2.1
        · intro hmem
          exact hfull.2.2 (hmemDrest _ hmem))]
    simp only [except_bind_ok, except_pure]
    rw [declEmptyFiles_cons]
    simp only [hfo, subdirPathOf, F6, List.append_assoc]

theorem declFiles_files_congr (fs1 fs2 : FS) (mainPath : FPath)
    (subs : List (String × JVal))
    (h : ∀ q, fs1.lookupFile q = fs2.lookupFile q) :
    declFiles fs1 mainPath subs = declFiles fs2 mainPath subs := by
  unfold declFiles
  refine concatMap'_congr _ _ subs (fun p hp => ?_)
  refine filterMap_congr' _ _ (filesOf p.2) (fun e he => ?_)
  rw [entryOutput_congr fs1 fs2 e (h _)]

theorem declWarns_files_congr (fs1 fs2 : FS)
    (subs : List (String × JVal))
    (h : ∀ q, fs1.lookupFile q = fs2.lookupFile q) :
    declWarns fs1 subs = declWarns fs2 subs := by
  unfold declWarns
  refine concatMap'_congr _ _ subs (fun p hp => ?_)
  refine concatMap'_congr _ _ (filesOf p.2) (fun e he => ?_)
  exact entryWarn_congr fs1 fs2 e (h _)

theorem generate_spec (tf : List (String × JVal)) (outPath : FPath) (fs : FS)
    (m : String) (subs : List (String × JVal))
    (h1 : alookup "main_directory" tf = some (.jstr m))
    (h2 : saneComp m = true)
    (h3 : alookup "subdirectories" tf = some (.jobj subs))
    (h4 : validate_template (.jobj tf) = .ok [])
    (h5 : ∀ p ∈ subs, saneKey p.1 = true ∧ hasFilesList p.2 = true ∧
        ∀ e ∈ filesOf p.2, saneEntry e = true)
    (h7 : ∀ q ∈ pathInits outPath, fs.isDir q = true)
    (h8 : fs.isDir (outPath ++ [m]) = false ∧ fs.lookupFile (outPath ++ [m]) = none)
    (h9 : (declDirs (outPath ++ [m]) subs).Nodup)
    (h10 : ∀ d ∈ declDirs (outPath ++ [m]) subs,
        fs.isDir d = false ∧ fs.lookupFile d = none)
    (h11 : (declTargets (outPath ++ [m]) subs).Nodup)
    (h12 : ∀ t ∈ declTargets (outPath ++ [m]) subs, fs.isDir t = false ∧
        fs.lookupFile t = none ∧ t ∉ declDirs (outPath ++ [m]) subs)
    (h13 : ∀ p ∈ subs, ∀ e ∈ filesOf p.2, entryType e = "template" →
        fs.isDir (pathComps (entrySource e)) = false ∧
        pathComps (entrySource e) ≠ outPath ++ [m] ∧
        pathComps (entrySource e) ∉ declDirs (outPath ++ [m]) subs ∧
        pathComps (entrySource e) ∉ declTargets (outPath ++ [m]) subs) :
    generate (.jobj tf) outPath fs =
      ⟨⟨fs.dirs ++ [outPath ++ [m]] ++ declDirs (outPath ++ [m]) subs,
        fs.files ++ declFiles fs (outPath ++ [m]) subs⟩,
       declWarns fs subs, .completed⟩ := by
  have hm1 : pathComps m = [m] := pathComps_sane m h2
  have hmk : fs.makedirs (outPath ++ [m]) =
      .ok ⟨fs.dirs ++ [outPath ++ [m]], fs.files⟩ :=
    makedirs_snoc fs outPath m h7 h8.1 h8.2
  have hfs1LK : ∀ q, FS.lookupFile ⟨fs.dirs ++ [outPath ++ [m]], fs.files⟩ q =
      fs.lookupFile q := fun q => rfl
  have hGS := genSubdirs_spec (outPath ++ [m]) subs
    ⟨fs.dirs ++ [outPath ++ [m]], fs.files⟩
    (by simp)
    (by
      intro q hq
      rw [pathInits_snoc] at hq
      rcases List.mem_append.mp hq with hq | hq
      · exact isDir_append_true fs.dirs [outPath ++ [m]] fs.files fs.files q (h7 q hq)
      · rw [List.mem_singleton.mp hq]
        exact isDir_snoc_self _ _ _)
    h5
    h9
    (fun d hd => ⟨isDir_append_false fs.dirs [outPath ++ [m]] fs.files fs.files d
        (h10 d hd).1 (by simpa using declDirs_ne_mainPath _ _ d hd), by
      rw [hfs1LK]; exact (h10 d hd).2⟩)
    h11
    (fun t ht => ⟨isDir_append_false fs.dirs [outPath ++ [m]] fs.files fs.files t
        (h12 t ht).1 (by simpa using declTargets_ne_mainPath _ _ t ht),
      by rw [hfs1LK]; exact (h12 t ht).2.1, (h12 t ht).2.2⟩)
    (fun p hp e he htp => by
      have hs := h13 p hp e he htp
      exact ⟨isDir_append_false fs.dirs [outPath ++ [m]] fs.files fs.files _
          hs.1 (by simpa using hs.2.1), hs.2.2.1, hs.2.2.2⟩)
  rw [declFiles_files_congr ⟨fs.dirs ++ [outPath ++ [m]], fs.files⟩ fs _ subs
      (fun q => rfl),
    declWarns_files_congr ⟨fs.dirs ++ [outPath ++ [m]], fs.files⟩ fs subs
      (fun q => rfl)] at hGS
  simp only [generate, h4, List.isEmpty_nil, if_true, generateBody, pyGetItem, h1,
    except_bind_ok, hm1, hmk, h3, hGS]

theorem filterMap_all_some {a b : Type} (f : a → b) (l : List a) :
    l.filterMap (fun x => some (f x)) = l.map f := by
  induction l with
  | nil => rfl
  | cons x rest ih => simp [List.filterMap_cons, ih]

theorem concatMap'_nil_of {a b : Type} (f : a → List b) (l : List a)
    (h : ∀ x ∈ l, f x = []) : concatMap' f l = [] := by
  induction l with
  | nil => rfl
  | cons x rest ih =>
    simp [concatMap', h x (List.mem_cons_self x rest),
      ih (fun y hy => h y (List.mem_cons_of_mem x hy))]

theorem entryOutput_eq_content (fs : FS) (e : JVal) (hs : saneEntry e = true)
    (hex : entryType e = "template" →
        (fs.lookupFile (pathComps (entrySource e))).isSome = true) :
    entryOutput fs e = some (entryContent fs e) := by
  obtain ⟨ff, ns, rfl, hname, hsane, hEn, hty⟩ := saneEntry_cases _ hs
  rcases hty with ⟨htype, hTe⟩ | ⟨src, htype, hTe, hsrck, hEs⟩
  · simp [entryOutput, entryContent, hTe]
  · have hsome := hex hTe
    cases hlk : FS.lookupFile fs (pathComps (entrySource (.jobj ff))) with
    | none => rw [hlk] at hsome; exact absurd hsome (by simp)
    | some c => simp [entryOutput, entryContent, hTe, hlk]

theorem entryWarn_nil (fs : FS) (e : JVal) (hs : saneEntry e = true)
    (hex : entryType e = "template" →
        (fs.lookupFile (pathComps (entrySource e))).isSome = true) :
    entryWarn fs e = [] := by
  obtain ⟨ff, ns, rfl, hname, hsane, hEn, hty⟩ := saneEntry_cases _ hs
  rcases hty with ⟨htype, hTe⟩ | ⟨src, htype, hTe, hsrck, hEs⟩
  · simp [entryWarn, hTe]
  · have hsome := hex hTe
    cases hlk : FS.lookupFile fs (pathComps (entrySource (.jobj ff))) with
    | none => rw [hlk] at hsome; exact absurd hsome (by simp)
    | some c => simp [entryWarn, hTe, hlk]

theorem declFiles_eq_all (fs : FS) (mainPath : FPath) (subs : List (String × JVal))
    (hsane : ∀ p ∈ subs, ∀ e ∈ filesOf p.2, saneEntry e = true)
    (hex : ∀ p ∈ subs, ∀ e ∈ filesOf p.2, entryType e = "template" →
        (fs.lookupFile (pathComps (entrySource e))).isSome = true) :
    declFiles fs mainPath subs = declFilesAll fs mainPath subs := by
  unfold declFiles declFilesAll
  refine concatMap'_congr _ _ subs (fun p hp => ?_)
  rw [filterMap_congr' _ (fun e => some (entryTarget (subdirPathOf mainPath p.1) e,
      entryContent fs e)) (filesOf p.2) (fun e he => by
    rw [entryOutput_eq_content fs e (hsane p hp e he) (hex p hp e he)]
    rfl)]
  exact filterMap_all_some _ _

theorem declWarns_nil_of_sources (fs : FS) (subs : List (String × JVal))
    (hsane : ∀ p ∈ subs, ∀ e ∈ filesOf p.2, saneEntry e = true)
    (hex : ∀ p ∈ subs, ∀ e ∈ filesOf p.2, entryType e = "template" →
        (fs.lookupFile (pathComps (entrySource e))).isSome = true) :
    declWarns fs subs = [] := by
  unfold declWarns
  refine concatMap'_nil_of _ subs (fun p hp => ?_)
  exact concatMap'_nil_of _ (filesOf p.2) (fun e he =>
    entryWarn_nil fs e (hsane p hp e he) (hex p hp e he))

theorem generateDefault_spec (store : TStore)
    (project_number project_name template_name output_dir : String)
    (tf : List (String × JVal)) (fs : FS) (outPath : FPath)
    (m : String) (subs : List (String × JVal))
    (hstore : load_template store template_name = .ok (some (.jobj tf)))
    (hguard : ¬ (project_number = "" ∧ project_name = ""))
    (hMod : ModShape (.jobj tf) = true)
    (hTok : docTokenFree (.jobj tf) = true)
    (hmEq : m = project_name ++ "-" ++ project_number)
    (hOut : pathComps output_dir = outPath)
    (h1 : alookup "main_directory" tf = some (.jstr m))
    (h2 : saneComp m = true)
    (h3 : alookup "subdirectories" tf = some (.jobj subs))
    (h4 : validate_template (.jobj tf) = .ok [])
    (h5 : ∀ p ∈ subs, saneKey p.1 = true ∧ hasFilesList p.2 = true ∧
        ∀ e ∈ filesOf p.2, saneEntry e = true)
    (h7 : ∀ q ∈ pathInits outPath, fs.isDir q = true)
    (h8 : fs.isDir (outPath ++ [m]) = false ∧ fs.lookupFile (outPath ++ [m]) = none)
    (h9 : (declDirs (outPath ++ [m]) subs).Nodup)
    (h10 : ∀ d ∈ declDirs (outPath ++ [m]) subs,
        fs.isDir d = false ∧ fs.lookupFile d = none)
    (h11 : (declTargets (outPath ++ [m]) subs).Nodup)
    (h12 : ∀ t ∈ declTargets (outPath ++ [m]) subs, fs.isDir t = false ∧
        fs.lookupFile t = none ∧ t ∉ declDirs (outPath ++ [m]) subs) :
    generate_default store project_number project_name template_name output_dir fs =
      ⟨⟨fs.dirs ++ [outPath ++ [m]] ++ declDirs (outPath ++ [m]) subs,
        fs.files ++ declEmptyFiles (outPath ++ [m]) subs⟩, [], .completed⟩ := by
  have htfne : tf ≠ [] := by
    intro hn
    rw [hn] at h1
    exact Option.noConfusion h1
  have hfalsy : pyFalsy (.jobj tf) = false := by
    cases tf with
    | nil => exact absurd rfl htfne
    | cons a l => rfl
  have hmodid : modify_template (.jobj tf) project_number project_name =
      .ok (.jobj tf) := by
    rw [modify_eq_spec _ _ _ hMod,
      modifySpec_fixed _ _ _ hMod (by rw [← hmEq]; simpa [mainDirOf] using h1) hTok]
  have hm1 : pathComps m = [m] := pathComps_sane m h2
  have hmk : fs.makedirs (outPath ++ [m]) =
      .ok ⟨fs.dirs ++ [outPath ++ [m]], fs.files⟩ :=
    makedirs_snoc fs outPath m h7 h8.1 h8.2
  have hfs1LK : ∀ q, FS.lookupFile ⟨fs.dirs ++ [outPath ++ [m]], fs.files⟩ q =
      fs.lookupFile q := fun q => rfl
  have hGSD := genSubdirsDefault_spec (outPath ++ [m]) subs
    ⟨fs.dirs ++ [outPath ++ [m]], fs.files⟩
    (by simp)
    (by
      intro q hq
      rw [pathInits_snoc] at hq
      rcases List.mem_append.mp hq with hq | hq
      · exact isDir_append_true fs.dirs [outPath ++ [m]] fs.files fs.files q (h7 q hq)
      · rw [List.mem_singleton.mp hq]
        exact isDir_snoc_self _ _ _)
    h5
    h9
    (fun d hd => ⟨isDir_append_false fs.dirs [outPath ++ [m]] fs.files fs.files d
        (h10 d hd).1 (by simpa using declDirs_ne_mainPath _ _ d hd), by
      rw [hfs1LK]; exact (h10 d hd).2⟩)
    h11
    (fun t ht => ⟨isDir_append_false fs.dirs [outPath ++ [m]] fs.files fs.files t
        (h12 t ht).1 (by simpa using declTargets_ne_mainPath _ _ t ht),
      by rw [hfs1LK]; exact (h12 t ht).2.1, (h12 t ht).2.2⟩)
  simp only [generate_default, hstore, Option.getD, if_neg hguard, hfalsy,
    Bool.false_eq_true, if_false, h4, List.isEmpty_nil, if_true, hmodid,
    generateDefaultBody, pyGetItem, h1, except_bind_ok, hm1, hOut, hmk, h3, hGSD]

/-! ## Claim C1: `generate` produces exactly the declared structure -/

/-- **C1.** Corrected declared-structure property.  For a template that
passes validation *and* whose names, keys and declared paths are sane,
pairwise distinct and fresh in the filesystem, and whose template-typed
sources all exist, `generate` completes creating exactly the declared
tree: the main directory, one directory per non-empty subdirectory key
(`declDirs`), one file per file entry with empty content for `empty` and
the source bytes for `template` (`declFilesAll`), no warnings, and
nothing else.  Validation alone is not sufficient, as the claim has it:
`C1_counterexample` shows a validated template whose declared file is
never created. -/
theorem C1_generate_declared_structure (tf : List (String × JVal)) (outPath : FPath)
    (fs : FS) (m : String) (subs : List (String × JVal))
    (h1 : alookup "main_directory" tf = some (.jstr m))
    (h2 : saneComp m = true)
    (h3 : alookup "subdirectories" tf = some (.jobj subs))
    (h4 : validate_template (.jobj tf) = .ok [])
    (h5 : ∀ p ∈ subs, saneKey p.1 = true ∧ hasFilesList p.2 = true ∧
        ∀ e ∈ filesOf p.2, saneEntry e = true)
    (h7 : ∀ q ∈ pathInits outPath, fs.isDir q = true)
    (h8 : fs.isDir (outPath ++ [m]) = false ∧ fs.lookupFile (outPath ++ [m]) = none)
    (h9 : (declDirs (outPath ++ [m]) subs).Nodup)
    (h10 : ∀ d ∈ declDirs (outPath ++ [m]) subs,
        fs.isDir d = false ∧ fs.lookupFile d = none)
    (h11 : (declTargets (outPath ++ [m]) subs).Nodup)
    (h12 : ∀ t ∈ declTargets (outPath ++ [m]) subs, fs.isDir t = false ∧
        fs.lookupFile t = none ∧ t ∉ declDirs (outPath ++ [m]) subs)
    (h13 : ∀ p ∈ subs, ∀ e ∈ filesOf p.2, entryType e = "template" →
        fs.isDir (pathComps (entrySource e)) = false ∧
        pathComps (entrySource e) ≠ outPath ++ [m] ∧
        pathComps (entrySource e) ∉ declDirs (outPath ++ [m]) subs ∧
        pathComps (entrySource e) ∉ declTargets (outPath ++ [m]) subs)
    (h14 : ∀ p ∈ subs, ∀ e ∈ filesOf p.2, entryType e = "template" →
        (fs.lookupFile (pathComps (entrySource e))).isSome = true) :
    generate (.jobj tf) outPath fs =
      ⟨⟨fs.dirs ++ [outPath ++ [m]] ++ declDirs (outPath ++ [m]) subs,
        fs.files ++ declFilesAll fs (outPath ++ [m]) subs⟩, [], .completed⟩ := by
  rw [generate_spec tf outPath fs m subs h1 h2 h3 h4 h5 h7 h8 h9 h10 h11 h12 h13,
    declFiles_eq_all fs _ subs (fun p hp => (h5 p hp).2.2) h14,
    declWarns_nil_of_sources fs subs (fun p hp => (h5 p hp).2.2) h14]

/-- **C1 counterexample.**  `tC1ce` passes validation and declares one
file entry (named by the empty string), yet `generate` on a fresh output
root completes having created no file at all: `name = ""` makes the
target path equal the subdirectory itself, and `Path.touch` on an
existing directory is a no-op.  The claim's own premises (validation,
sources exist — vacuous here, fresh root) thus do not give one file per
declared entry. -/
theorem C1_counterexample :
    validate_template tC1ce = .ok [] ∧
    namesOf tC1ce = [""] ∧
    generate tC1ce ["out"] ⟨[["out"]], []⟩ =
      ⟨⟨[["out"], ["out", "m"], ["out", "m", "s"]], []⟩, [], .completed⟩ :=
  ⟨rfl, rfl, rfl⟩

/-- Closed instance of `C1_generate_declared_structure` on `tfC1w`. -/
theorem C1_witness :
    generate (.jobj tfC1w) ["out"] fsC1w =
      ⟨⟨fsC1w.dirs ++ [["out", "proj"]] ++ declDirs ["out", "proj"] subsC1w,
        fsC1w.files ++ declFilesAll fsC1w ["out", "proj"] subsC1w⟩, [], .completed⟩ :=
  C1_generate_declared_structure tfC1w ["out"] fsC1w "proj" subsC1w
    rfl (by decide) rfl rfl (by decide) (by decide) (by decide) (by decide)
    (by decide) (by decide) (by decide) (by decide) (by decide)

/-! ## Claim C6: template-typed copy/skip semantics on every entry point -/

/-- **C6.** Corrected.  First conjunct (`generate`, the path behind
`generate_from_template`): each template-typed entry is copied when its
source exists and skipped with a warning when it is missing, generation
continuing through all remaining entries — the run completes with files
`declFiles` (one per entry whose `entryOutput` is `some`) and warnings
`declWarns` (one per missing source).  Second conjunct: the `--generate`
CLI path (`mainGenerate`, dispatching to `generate_default`) does *not*
have this behaviour — its loop handles only `type == "empty"`, so on the
same filesystem it completes with only the empty-typed files
(`declEmptyFiles`), no copies and no warnings, even for sources that
exist.  The claim's 'every entry point' is therefore false; see
`C6_counterexample`. -/
theorem C6_copy_skip_vs_cli (store : TStore)
    (project_number project_name template_name output_dir : String)
    (tf : List (String × JVal)) (fs : FS) (outPath : FPath)
    (m : String) (subs : List (String × JVal))
    (hstore : load_template store template_name = .ok (some (.jobj tf)))
    (hguard : ¬ (project_number = "" ∧ project_name = ""))
    (hMod : ModShape (.jobj tf) = true)
    (hTok : docTokenFree (.jobj tf) = true)
    (hmEq : m = project_name ++ "-" ++ project_number)
    (hOut : pathComps output_dir = outPath)
    (h1 : alookup "main_directory" tf = some (.jstr m))
    (h2 : saneComp m = true)
    (h3 : alookup "subdirectories" tf = some (.jobj subs))
    (h4 : validate_template (.jobj tf) = .ok [])
    (h5 : ∀ p ∈ subs, saneKey p.1 = true ∧ hasFilesList p.2 = true ∧
        ∀ e ∈ filesOf p.2, saneEntry e = true)
    (h7 : ∀ q ∈ pathInits outPath, fs.isDir q = true)
    (h8 : fs.isDir (outPath ++ [m]) = false ∧ fs.lookupFile (outPath ++ [m]) = none)
    (h9 : (declDirs (outPath ++ [m]) subs).Nodup)
    (h10 : ∀ d ∈ declDirs (outPath ++ [m]) subs,
        fs.isDir d = false ∧ fs.lookupFile d = none)
    (h11 : (declTargets (outPath ++ [m]) subs).Nodup)
    (h12 : ∀ t ∈ declTargets (outPath ++ [m]) subs, fs.isDir t = false ∧
        fs.lookupFile t = none ∧ t ∉ declDirs (outPath ++ [m]) subs)
    (h13 : ∀ p ∈ subs, ∀ e ∈ filesOf p.2, entryType e = "template" →
        fs.isDir (pathComps (entrySource e)) = false ∧
        pathComps (entrySource e) ≠ outPath ++ [m] ∧
        pathComps (entrySource e) ∉ declDirs (outPath ++ [m]) subs ∧
        pathComps (entrySource e) ∉ declTargets (outPath ++ [m]) subs) :
    generate (.jobj tf) outPath fs =
      ⟨⟨fs.dirs ++ [outPath ++ [m]] ++ declDirs (outPath ++ [m]) subs,
        fs.files ++ declFiles fs (outPath ++ [m]) subs⟩,
       declWarns fs subs, .completed⟩ ∧
    mainGenerate store template_name output_dir project_number project_name fs =
      ⟨⟨fs.dirs ++ [outPath ++ [m]] ++ declDirs (outPath ++ [m]) subs,
        fs.files ++ declEmptyFiles (outPath ++ [m]) subs⟩, [], .completed⟩ :=
  ⟨generate_spec tf outPath fs m subs h1 h2 h3 h4 h5 h7 h8 h9 h10 h11 h12 h13,
   generateDefault_spec store project_number project_name template_name output_dir
     tf fs outPath m subs hstore hguard hMod hTok hmEq hOut
     h1 h2 h3 h4 h5 h7 h8 h9 h10 h11 h12⟩

/-- **C6 counterexample.**  The validated template `tC6` has one
template-typed entry whose source `srcs/g` exists.  `generate` (the
`generate_from_template` path) copies it; the `--generate` CLI path
(`mainGenerate` on the same template served from `storeC6`) completes
with no warning yet never creates the file — so the copy/skip semantics
does not hold for every generation entry point. -/
theorem C6_counterexample :
    validate_template tC6 = .ok [] ∧
    fsC6.lookupFile ["srcs", "g"] = some "hello" ∧
    (generate tC6 ["out"] fsC6).outcome = .completed ∧
    (generate tC6 ["out"] fsC6).fs.lookupFile
      ["out", "Acme-042", "a", "g.txt"] = some "hello" ∧
    (mainGenerate storeC6 "defaults/ace_basic.json" "out" "042" "Acme" fsC6).outcome
      = .completed ∧
    (mainGenerate storeC6 "defaults/ace_basic.json" "out" "042" "Acme" fsC6).warnings
      = [] ∧
    (mainGenerate storeC6 "defaults/ace_basic.json" "out" "042" "Acme" fsC6).fs.lookupFile
      ["out", "Acme-042", "a", "g.txt"] = none :=
  ⟨rfl, rfl, rfl, rfl, rfl, rfl, rfl⟩

/-- Closed instance of `C6_copy_skip_vs_cli` on `tfC6w` (one empty entry,
one existing source, one missing source). -/
theorem C6_witness :
    generate (.jobj tfC6w) ["out"] fsC6w =
      ⟨⟨fsC6w.dirs ++ [["out", "Acme-042"]] ++ declDirs ["out", "Acme-042"] subsC6w,
        fsC6w.files ++ declFiles fsC6w ["out", "Acme-042"] subsC6w⟩,
       declWarns fsC6w subsC6w, .completed⟩ ∧
    mainGenerate storeC6w "defaults/tw.json" "out" "042" "Acme" fsC6w =
      ⟨⟨fsC6w.dirs ++ [["out", "Acme-042"]] ++ declDirs ["out", "Acme-042"] subsC6w,
        fsC6w.files ++ declEmptyFiles ["out", "Acme-042"] subsC6w⟩, [], .completed⟩ :=
  C6_copy_skip_vs_cli storeC6w "042" "Acme" "defaults/tw.json" "out" tfC6w fsC6w
    ["out"] "Acme-042" subsC6w
    rfl (by decide) (by decide) (by decide) (by decide) rfl
    rfl (by decide) rfl rfl (by decide) (by decide) (by decide) (by decide)
    (by decide) (by decide) (by decide) (by decide)
